import Mathlib

/-!
Verification development for the raven fleet manager core.

Shallow embedding of the fleet subsystem (inventory store, SSH transport,
host-key trust store, bootstrap plan builder, bootstrap executor and
diagnostics prober) translated from the TypeScript sources, together with
theorems settling the behavioural claims about them.

Conventions of the embedding:
* Remote-shell strings are modelled as `List Char` (named `Str`) where
  character-level parsing matters, and as `String` elsewhere.
* JavaScript numbers holding ports / exit codes are modelled as `Int`
  (all values exercised are small integers, far below 2^53, so the
  float representation of JS numbers is exact there).
* File-system effects (read file / write file / advisory lock) are
  modelled by passing the persisted value explicitly and returning the
  new value; a thrown JS exception is modelled by `Except String`.
* Child-process spawning is modelled by an oracle function argument, so
  "no process is spawned" is expressed as the result being a constant
  independent of the oracle.
-/

/-- Character sequences; the faithful model of JavaScript strings used by the
character-level parsing functions. -/
abbrev Str := List Char

/-- The JavaScript white-space class (`\s` in a RegExp, and the characters
stripped by `String.prototype.trim`): tab, LF, VT, FF, CR, space, NBSP,
Ogham space, the U+2000..200A range, LS, PS, NNBSP, MMSP, ideographic space
and the BOM. -/
def jsIsSpace (c : Char) : Bool :=
  c.toNat ∈ [9, 10, 11, 12, 13, 32, 160, 0x1680,
    0x2000, 0x2001, 0x2002, 0x2003, 0x2004, 0x2005, 0x2006, 0x2007,
    0x2008, 0x2009, 0x200A, 0x2028, 0x2029, 0x202F, 0x205F, 0x3000, 0xFEFF]

/-- `String.prototype.trim`: strip leading and trailing JS white-space. -/
def jsTrim (s : Str) : Str :=
  ((s.dropWhile jsIsSpace).reverse.dropWhile jsIsSpace).reverse

/-- Worker for `jsSplitWs`: accumulates the current field (reversed). -/
def jsWordsGo : Str → Str → List Str
  | [], acc => if acc.isEmpty then [] else [acc.reverse]
  | c :: cs, acc =>
    if jsIsSpace c then
      if acc.isEmpty then jsWordsGo cs [] else acc.reverse :: jsWordsGo cs []
    else
      jsWordsGo cs (c :: acc)

/-- `str.split(/\s+/)` on a string with no leading white-space (the sources
always call it on trimmed strings): the list of maximal non-white-space
runs. -/
def jsSplitWs (s : Str) : List Str := jsWordsGo s []

/-- `content.split("\n")`: split at every newline, keeping empty pieces. -/
def splitOnNl : Str → List Str
  | [] => [[]]
  | c :: cs =>
    if c = '\n' then [] :: splitOnNl cs
    else
      match splitOnNl cs with
      | [] => [[c]]
      | l :: ls => (c :: l) :: ls

/-- Decimal digit test (`\d`). -/
def isDigitChar (c : Char) : Bool := 48 ≤ c.toNat ∧ c.toNat ≤ 57

/-- `Number.parseInt(s, 10)` on a non-empty all-digit string. -/
def digitsToNat (ds : Str) : Nat :=
  ds.foldl (fun n c => 10 * n + (c.toNat - 48)) 0

/-- Decimal rendering of a natural number (the value of `String(n)` for the
integer-valued JS numbers that occur here). -/
def natDigits : Nat → Str
  | n =>
    if h : n < 10 then [Char.ofNat (48 + n)]
    else natDigits (n / 10) ++ [Char.ofNat (48 + n % 10)]
  decreasing_by exact Nat.div_lt_self (by omega) (by omega)

/-! ## Host-key trust store (`host-keys.ts`) -/

/-- A host key entry in the known_hosts file: hostname, SSH port, key type
(algorithm) and base64 key material. -/
structure HostKeyEntry where
  host : Str
  port : Nat
  keyType : Str
  key : Str
deriving DecidableEq, Repr

/-- `formatHostEntry`: bare host for the default port 22, `[host]:port`
bracket form otherwise. -/
def formatHostEntry (host : Str) (port : Nat) : Str :=
  if port = 22 then host
  else '[' :: host ++ ']' :: ':' :: natDigits port

/-- `parseHostEntry`: match `^\[([^\]]+)\]:(\d+)$`, otherwise a bare host at
port 22. -/
def parseHostEntry (entry : Str) : Str × Nat :=
  match entry with
  | '[' :: rest =>
    let h := rest.takeWhile (· ≠ ']')
    match rest.dropWhile (· ≠ ']') with
    | ']' :: ':' :: ds =>
      if h ≠ [] ∧ ds ≠ [] ∧ ds.all isDigitChar then (h, digitsToNat ds)
      else (entry, 22)
    | _ => (entry, 22)
  | _ => (entry, 22)

/-- One iteration of the `parseKnownHosts` loop: `None` for blank lines,
`#` comments and malformed lines. -/
def parseKnownHostsLine (line : Str) : Option HostKeyEntry :=
  let t := jsTrim line
  if t = [] then none
  else if t.head? = some '#' then none
  else
    match jsSplitWs t with
    | hostEntry :: keyType :: key :: _ =>
      if hostEntry = [] ∨ keyType = [] ∨ key = [] then none
      else
        let hp := parseHostEntry hostEntry
        some ⟨hp.1, hp.2, keyType, key⟩
    | _ => none

/-- `parseKnownHosts`: split the file on newlines and collect the entries of
the well-formed lines. -/
def parseKnownHosts (content : Str) : List HostKeyEntry :=
  (splitOnNl content).filterMap parseKnownHostsLine

/-- The line `formatKnownHosts` emits for one entry. -/
def formatKnownHostsLine (e : HostKeyEntry) : Str :=
  formatHostEntry e.host e.port ++ ' ' :: e.keyType ++ ' ' :: e.key

/-- `formatKnownHosts`: one line per entry, newline-joined, with a trailing
newline. -/
def formatKnownHosts (entries : List HostKeyEntry) : Str :=
  List.intercalate [ '\n' ] (entries.map formatKnownHostsLine) ++ [ '\n' ]

/-- The `(host, port, keyType)` tuple equality used by `pinHostKey`. -/
def sameTuple (a b : HostKeyEntry) : Bool :=
  a.host = b.host ∧ a.port = b.port ∧ a.keyType = b.keyType

/-- The pure read-modify-write core of `pinHostKey`: drop every entry with
the same `(host, port, keyType)` tuple, then append the new entry. -/
def pinHostKey (entries : List HostKeyEntry) (e : HostKeyEntry) : List HostKeyEntry :=
  entries.filter (fun x => !(sameTuple x e)) ++ [e]

/-- The pure core of `removeHostKey`: drop every entry for the host/port;
returns the new list and whether anything was removed. -/
def removeHostKey (entries : List HostKeyEntry) (host : Str) (port : Nat) :
    List HostKeyEntry × Bool :=
  let filtered := entries.filter (fun e => !(e.host = host ∧ e.port = port))
  (filtered, filtered.length ≠ entries.length)

/-- The pure core of `getHostKey`: prefer ssh-ed25519, then ssh-rsa, then the
first recorded entry for the host/port. -/
def getHostKey (entries : List HostKeyEntry) (host : Str) (port : Nat) :
    Option HostKeyEntry :=
  let ms := entries.filter (fun e => e.host = host ∧ e.port = port)
  match ms.find? (fun e => e.keyType = "ssh-ed25519".data) with
  | some e => some e
  | none =>
    match ms.find? (fun e => e.keyType = "ssh-rsa".data) with
    | some e => some e
    | none => ms.head?

/-! ## A model of `JSON.parse`

Used by the inventory store (`safeParseJson`) and the diagnostics prober
(`parseUptime`).  JSON numbers are modelled by their integer part (every
number the claims exercise is a small integer, exactly representable). -/

/-- JSON values. -/
inductive Json where
  | null : Json
  | bool (b : Bool) : Json
  | num (n : Int) : Json
  | str (s : Str) : Json
  | arr (elems : List Json) : Json
  | obj (fields : List (Str × Json)) : Json

/-- JSON insignificant white-space. -/
def jsonIsWs (c : Char) : Bool :=
  c = ' ' ∨ c = '\t' ∨ c = '\n' ∨ c = '\r'

/-- Skip JSON white-space. -/
def jsonSkipWs (s : Str) : Str := s.dropWhile jsonIsWs

/-- Parse the body of a JSON string literal (after the opening quote);
returns the decoded characters and the input after the closing quote. -/
def jsonParseStringBody (fuel : Nat) (s : Str) : Option (Str × Str) :=
  match fuel, s with
  | 0, _ => none
  | _, [] => none
  | fuel + 1, c :: cs =>
    if c = '"' then some ([], cs)
    else if c = '\\' then
      match cs with
      | [] => none
      | e :: cs' =>
        let dec : Option Char :=
          if e = '"' then some '"'
          else if e = '\\' then some '\\'
          else if e = '/' then some '/'
          else if e = 'b' then some (Char.ofNat 8)
          else if e = 'f' then some (Char.ofNat 12)
          else if e = 'n' then some '\n'
          else if e = 'r' then some '\r'
          else if e = 't' then some '\t'
          else none
        match dec with
        | some d =>
          match jsonParseStringBody fuel cs' with
          | some (rest, rem) => some (d :: rest, rem)
          | none => none
        | none =>
          -- \uXXXX escapes
          if e = 'u' then
            match cs' with
            | h1 :: h2 :: h3 :: h4 :: cs'' =>
              let hexVal (c : Char) : Option Nat :=
                if isDigitChar c then some (c.toNat - 48)
                else if 97 ≤ c.toNat ∧ c.toNat ≤ 102 then some (c.toNat - 87)
                else if 65 ≤ c.toNat ∧ c.toNat ≤ 70 then some (c.toNat - 55)
                else none
              match hexVal h1, hexVal h2, hexVal h3, hexVal h4 with
              | some a, some b, some c3, some d4 =>
                let n := ((a * 16 + b) * 16 + c3) * 16 + d4
                -- surrogate code points are not valid `Char`s; map them to
                -- the replacement character (they never occur in the data
                -- the claims exercise)
                let ch := if 0xD800 ≤ n ∧ n ≤ 0xDFFF then Char.ofNat 0xFFFD else Char.ofNat n
                match jsonParseStringBody fuel cs'' with
                | some (rest, rem) => some (ch :: rest, rem)
                | none => none
              | _, _, _, _ => none
            | _ => none
          else none
    else if c.toNat < 32 then none
    else
      match jsonParseStringBody fuel cs with
      | some (rest, rem) => some (c :: rest, rem)
      | none => none

/-- Parse a JSON number's integer part: optional minus sign, then digits with
no leading zero; an optional fraction and exponent are accepted and
discarded (the integer part is kept). -/
def jsonParseNumber (s : Str) : Option (Int × Str) :=
  let (neg, s1) : Bool × Str :=
    match s with
    | '-' :: rest => (true, rest)
    | _ => (false, s)
  let ds := s1.takeWhile isDigitChar
  let rest := s1.dropWhile isDigitChar
  if ds = [] then none
  else if ds.length > 1 ∧ ds.head? = some '0' then none
  else
    -- optional fraction
    let (fracOk, rest2) : Bool × Str :=
      match rest with
      | '.' :: r =>
        let fs := r.takeWhile isDigitChar
        if fs = [] then (false, rest) else (true, r.dropWhile isDigitChar)
      | _ => (true, rest)
    if !fracOk then none
    else
      -- optional exponent (value discarded: no claim involves one)
      let (expOk, rest3) : Bool × Str :=
        match rest2 with
        | 'e' :: r | 'E' :: r =>
          let r' := match r with
            | '+' :: r2 => r2
            | '-' :: r2 => r2
            | _ => r
          let es := r'.takeWhile isDigitChar
          if es = [] then (false, rest2) else (true, r'.dropWhile isDigitChar)
        | _ => (true, rest2)
      if !expOk then none
      else
        let v : Int := Int.ofNat (digitsToNat ds)
        some (if neg then -v else v, rest3)

mutual

/-- Parse one JSON value; returns the value and the remaining input. -/
def jsonParseValue (fuel : Nat) (s : Str) : Option (Json × Str) :=
  match fuel with
  | 0 => none
  | fuel + 1 =>
    match jsonSkipWs s with
    | 'n' :: 'u' :: 'l' :: 'l' :: rest => some (.null, rest)
    | 't' :: 'r' :: 'u' :: 'e' :: rest => some (.bool true, rest)
    | 'f' :: 'a' :: 'l' :: 's' :: 'e' :: rest => some (.bool false, rest)
    | '"' :: rest =>
      match jsonParseStringBody (rest.length + 1) rest with
      | some (str, rem) => some (.str str, rem)
      | none => none
    | '[' :: rest =>
      match jsonSkipWs rest with
      | ']' :: rem => some (.arr [], rem)
      | _ =>
        match jsonParseElems fuel rest with
        | some (elems, rem) => some (.arr elems, rem)
        | none => none
    | '{' :: rest =>
      match jsonSkipWs rest with
      | '}' :: rem => some (.obj [], rem)
      | _ =>
        match jsonParseMembers fuel rest with
        | some (fields, rem) => some (.obj fields, rem)
        | none => none
    | rest =>
      match jsonParseNumber rest with
      | some (n, rem) => some (.num n, rem)
      | none => none

/-- Parse a non-empty comma-separated list of array elements plus the
closing bracket. -/
def jsonParseElems (fuel : Nat) (s : Str) : Option (List Json × Str) :=
  match fuel with
  | 0 => none
  | fuel + 1 =>
    match jsonParseValue fuel s with
    | none => none
    | some (v, rest) =>
      match jsonSkipWs rest with
      | ',' :: rest2 =>
        match jsonParseElems fuel rest2 with
        | some (vs, rem) => some (v :: vs, rem)
        | none => none
      | ']' :: rem => some ([v], rem)
      | _ => none

/-- Parse a non-empty comma-separated list of object members plus the
closing brace. -/
def jsonParseMembers (fuel : Nat) (s : Str) : Option (List (Str × Json) × Str) :=
  match fuel with
  | 0 => none
  | fuel + 1 =>
    match jsonSkipWs s with
    | '"' :: rest =>
      match jsonParseStringBody (rest.length + 1) rest with
      | none => none
      | some (key, rest1) =>
        match jsonSkipWs rest1 with
        | ':' :: rest2 =>
          match jsonParseValue fuel rest2 with
          | none => none
          | some (v, rest3) =>
            match jsonSkipWs rest3 with
            | ',' :: rest4 =>
              match jsonParseMembers fuel rest4 with
              | some (fields, rem) => some ((key, v) :: fields, rem)
              | none => none
            | '}' :: rem => some ([(key, v)], rem)
            | _ => none
        | _ => none
    | _ => none

end

/-- `JSON.parse`: parse a complete JSON document (only white-space may
follow the value). -/
def jsonParse (s : Str) : Option Json :=
  match jsonParseValue (s.length + 1) s with
  | some (v, rest) => if jsonSkipWs rest = [] then some v else none
  | none => none

/-- Property access `o[key]` on a parsed JSON object: with `JSON.parse`,
a duplicated key keeps the last occurrence. -/
def jsonGet (j : Json) (key : Str) : Option Json :=
  match j with
  | .obj fields => (fields.reverse.find? (fun f => f.1 = key)).map (·.2)
  | _ => none

/-! ## Fleet data model (`types.ts`) -/

/-- Operating system enum. -/
inductive FleetOs where
  | darwin | linux | unknown
deriving DecidableEq, Repr

/-- Architecture enum. -/
inductive FleetArch where
  | x64 | arm64 | unknown
deriving DecidableEq, Repr

/-- Service status enum. -/
inductive ServiceStatus where
  | running | stopped | unknown
deriving DecidableEq, Repr

/-- Installation info (`installed` field). -/
structure InstalledInfo where
  version : String
  installedAt : String
deriving DecidableEq, Repr

/-- A fleet node record. -/
structure FleetNode where
  id : String
  name : String
  host : String
  port : Int
  user : String
  trusted : Bool
  hostKey : Option String
  tags : List String
  os : Option FleetOs
  arch : Option FleetArch
  installed : Option InstalledInfo
  lastSeen : Option String
  serviceStatus : Option ServiceStatus
deriving DecidableEq, Repr

/-- The fleet store file (`nodes.json`). -/
structure FleetStore where
  schemaVersion : Int
  nodes : List FleetNode
deriving DecidableEq, Repr

/-- `createEmptyFleetStore`. -/
def createEmptyFleetStore : FleetStore :=
  { schemaVersion := 1, nodes := [] }

/-- Characters admitted by `nodeNameRegex` (`/^[a-zA-Z0-9_-]+$/`). -/
def isNameChar (c : Char) : Bool :=
  (97 ≤ c.toNat ∧ c.toNat ≤ 122) ∨ (65 ≤ c.toNat ∧ c.toNat ≤ 90) ∨
    (48 ≤ c.toNat ∧ c.toNat ≤ 57) ∨ c.toNat = 95 ∨ c.toNat = 45

/-- `nodeNameRegex.test(name)`. -/
def nodeNameRegexTest (name : String) : Bool :=
  !name.data.isEmpty ∧ name.data.all isNameChar

/-- `String.prototype.toLowerCase` restricted to the ASCII range: all node
names accepted by the store match `nodeNameRegex`, so only A–Z ever
lower-cases in the store's comparisons. -/
def jsToLower (c : Char) : Char :=
  if 65 ≤ c.toNat ∧ c.toNat ≤ 90 then Char.ofNat (c.toNat + 32) else c

/-- `normalizeNodeName`: trim, then lower-case, for case-insensitive
comparison. -/
def normalizeNodeName (name : String) : Str :=
  (jsTrim name.data).map jsToLower

/-- `name.trim()` as a `String`. -/
def jsTrimS (s : String) : String := String.mk (jsTrim s.data)

/-- `validateNodeName`: the first validation error thrown, if any.
(`name.length` is the UTF-16 length in JS; it agrees with the character
count because the length check is only reached after the ASCII-only regex
check passed.) -/
def validateNodeName (name : String) : Option String :=
  if name = "" ∨ jsTrim name.data = [] then some "Node name cannot be empty"
  else if !nodeNameRegexTest name then
    some "Node name must contain only letters, numbers, hyphens, and underscores"
  else if name.data.length > 100 then some "Node name must be at most 100 characters"
  else none

/-- `validateHost`: non-empty and not starting with the option-flag prefix. -/
def validateHost (host : String) : Option String :=
  if host = "" ∨ jsTrim host.data = [] then some "Host cannot be empty"
  else if host.data.head? = some '-' then
    some "Host cannot start with \x27-\x27 (security)"
  else none

/-- `validatePort` (`Number.isInteger` holds by the `Int` representation). -/
def validatePort (port : Int) : Option String :=
  if port < 1 ∨ port > 65535 then
    some "Port must be an integer between 1 and 65535"
  else none

/-- `validateUser`: the inline user check of `addNode` / `updateNode`. -/
def validateUser (user : String) : Option String :=
  if user = "" ∨ jsTrim user.data = [] then some "User cannot be empty"
  else none

/-! ## The Zod schema check done on every read (`FleetStoreSchema.safeParse`) -/

/-- Split at every occurrence of a separator character, keeping empty
pieces. -/
def splitOnChar (sep : Char) : Str → List Str
  | [] => [[]]
  | c :: cs =>
    if c = sep then [] :: splitOnChar sep cs
    else
      match splitOnChar sep cs with
      | [] => [[c]]
      | l :: ls => (c :: l) :: ls

/-- Hexadecimal digit test. -/
def isHexChar (c : Char) : Bool :=
  isDigitChar c ∨ (97 ≤ c.toNat ∧ c.toNat ≤ 102) ∨ (65 ≤ c.toNat ∧ c.toNat ≤ 70)

/-- `z.string().uuid()`: the 8-4-4-4-12 hexadecimal shape. -/
def isUuid (s : Str) : Bool :=
  match splitOnChar '-' s with
  | [a, b, c, d, e] =>
    a.length = 8 ∧ b.length = 4 ∧ c.length = 4 ∧ d.length = 4 ∧ e.length = 12 ∧
      (a ++ b ++ c ++ d ++ e).all isHexChar
  | _ => false

/-- Consume exactly `n` decimal digits. -/
def expectDigits (n : Nat) (s : Str) : Option Str :=
  if (s.take n).length = n ∧ (s.take n).all isDigitChar then some (s.drop n)
  else none

/-- Consume one expected character. -/
def expectChar (c : Char) (s : Str) : Option Str :=
  match s with
  | d :: rest => if d = c then some rest else none
  | [] => none

/-- `z.string().datetime()`: `YYYY-MM-DDTHH:MM:SS(.fraction)?Z`. -/
def isIsoDatetime (s : Str) : Bool :=
  (do
    let s ← expectDigits 4 s
    let s ← expectChar '-' s
    let s ← expectDigits 2 s
    let s ← expectChar '-' s
    let s ← expectDigits 2 s
    let s ← expectChar 'T' s
    let s ← expectDigits 2 s
    let s ← expectChar ':' s
    let s ← expectDigits 2 s
    let s ← expectChar ':' s
    let s ← expectDigits 2 s
    let s ←
      match s with
      | '.' :: r =>
        let fs := r.takeWhile isDigitChar
        if fs = [] then none else some (r.dropWhile isDigitChar)
      | _ => some s
    let s ← expectChar 'Z' s
    if s = [] then some () else none).isSome

/-- A Zod `z.string()` check. -/
def zodString : Json → Option String
  | .str s => some (String.mk s)
  | _ => none

/-- `FleetOsSchema` (`z.enum`). -/
def zodOs : Json → Option FleetOs
  | .str s =>
    if s = "darwin".data then some .darwin
    else if s = "linux".data then some .linux
    else if s = "unknown".data then some .unknown
    else none
  | _ => none

/-- `FleetArchSchema` (`z.enum`). -/
def zodArch : Json → Option FleetArch
  | .str s =>
    if s = "x64".data then some .x64
    else if s = "arm64".data then some .arm64
    else if s = "unknown".data then some .unknown
    else none
  | _ => none

/-- `ServiceStatusSchema` (`z.enum`). -/
def zodServiceStatus : Json → Option ServiceStatus
  | .str s =>
    if s = "running".data then some .running
    else if s = "stopped".data then some .stopped
    else if s = "unknown".data then some .unknown
    else none
  | _ => none

/-- An optional field: absent passes as `none`; present must validate. -/
def zodOptField (j : Json) (key : Str) (check : Json → Option α) :
    Option (Option α) :=
  match jsonGet j key with
  | none => some none
  | some v => (check v).map some

/-- A field with a `.default(d)`: absent yields the default. -/
def zodDefaultField (j : Json) (key : Str) (check : Json → Option α) (d : α) :
    Option α :=
  match jsonGet j key with
  | none => some d
  | some v => check v

/-- A required field. -/
def zodReqField (j : Json) (key : Str) (check : Json → Option α) : Option α :=
  (jsonGet j key).bind check

/-- `FleetNodeSchema.safeParse` on a JSON value. -/
def zodFleetNode (j : Json) : Option FleetNode :=
  match j with
  | .obj _ => do
    let id ← zodReqField j "id".data fun v => (zodString v).bind fun s =>
      if isUuid s.data then some s else none
    let name ← zodReqField j "name".data fun v => (zodString v).bind fun s =>
      if 1 ≤ s.data.length ∧ s.data.length ≤ 100 ∧ nodeNameRegexTest s then some s
      else none
    let host ← zodReqField j "host".data fun v => (zodString v).bind fun s =>
      if s.data.length ≥ 1 ∧ s.data.head? ≠ some '-' then some s else none
    let port ← zodDefaultField j "port".data
      (fun v =>
        match v with
        | .num n => if 1 ≤ n ∧ n ≤ 65535 then some n else none
        | _ => none)
      22
    let user ← zodReqField j "user".data fun v => (zodString v).bind fun s =>
      if s.data.length ≥ 1 then some s else none
    let trusted ← zodDefaultField j "trusted".data
      (fun v => match v with | .bool b => some b | _ => none) false
    let hostKey ← zodOptField j "hostKey".data zodString
    let tags ← zodDefaultField j "tags".data
      (fun v =>
        match v with
        | .arr elems => elems.mapM zodString
        | _ => none)
      []
    let os ← zodOptField j "os".data zodOs
    let arch ← zodOptField j "arch".data zodArch
    let installed ← zodOptField j "installed".data fun v =>
      match v with
      | .obj _ => do
        let version ← zodReqField v "version".data zodString
        let installedAt ← zodReqField v "installedAt".data fun w =>
          (zodString w).bind fun s => if isIsoDatetime s.data then some s else none
        pure (⟨version, installedAt⟩ : InstalledInfo)
      | _ => none
    let lastSeen ← zodOptField j "lastSeen".data fun v =>
      (zodString v).bind fun s => if isIsoDatetime s.data then some s else none
    let serviceStatus ← zodOptField j "serviceStatus".data zodServiceStatus
    pure { id, name, host, port, user, trusted, hostKey, tags, os, arch,
           installed, lastSeen, serviceStatus }
  | _ => none

/-- `FleetStoreSchema.safeParse` on a JSON value: the schema-version literal
must be the integer `1`, and every node must validate. -/
def zodFleetStore (j : Json) : Option FleetStore :=
  match j with
  | .obj _ => do
    let _ ← match jsonGet j "schemaVersion".data with
      | some (.num 1) => some ()
      | _ => none
    let nodes ← zodDefaultField j "nodes".data
      (fun v =>
        match v with
        | .arr elems => elems.mapM zodFleetNode
        | _ => none)
      []
    pure { schemaVersion := 1, nodes }
  | _ => none

/-- `loadFleetStore`: the file content (`none` when the file is missing or
unreadable).  A missing file or unparsable JSON yields `readJsonFile`'s
fallback value `createEmptyFleetStore`, which satisfies the schema by
construction; a parsed value that fails `FleetStoreSchema.safeParse` is
replaced by the empty store.  The function is total: no failure mode
escapes to the caller. -/
def loadFleetStore (content : Option Str) : FleetStore :=
  match content with
  | none => createEmptyFleetStore
  | some raw =>
    match jsonParse raw with
    | none => createEmptyFleetStore
    | some j =>
      match zodFleetStore j with
      | none => createEmptyFleetStore
      | some store => store

/-! ## Inventory store operations (`store.ts`)

Each mutating operation re-reads the store under the advisory file lock,
mutates in memory and writes back atomically; the model passes the
re-read store value in and returns the written value.  `crypto.randomUUID`
is modelled by an explicit `id` argument. -/

/-- `AddNodeInput`: `id` is generated; the `?? false` / `?? []` defaults in
`addNode` treat `trusted` and `tags` as optional. -/
structure AddNodeInput where
  name : String
  host : String
  port : Int
  user : String
  trusted : Option Bool
  hostKey : Option String
  tags : Option (List String)
  installed : Option InstalledInfo
  lastSeen : Option String
deriving DecidableEq, Repr

/-- `UpdateNodeInput = Partial<Omit<FleetNode, "id" | "name">>`: every field
other than the identifier and the name may be supplied. -/
structure UpdateNodeInput where
  host : Option String := none
  port : Option Int := none
  user : Option String := none
  trusted : Option Bool := none
  hostKey : Option String := none
  tags : Option (List String) := none
  os : Option FleetOs := none
  arch : Option FleetArch := none
  installed : Option InstalledInfo := none
  lastSeen : Option String := none
  serviceStatus : Option ServiceStatus := none
deriving DecidableEq, Repr

/-- The duplicate-name test of `addNode` / `getNode` / `removeNode` /
`updateNode`. -/
def nodeNameMatches (name : String) (n : FleetNode) : Bool :=
  normalizeNodeName n.name == normalizeNodeName name

/-- `addNode`: validate, reject case-insensitive duplicates, append the new
record and write back.  Thrown `Error`s are modelled as `Except.error` of
the message. -/
def addNode (input : AddNodeInput) (id : String) (store : FleetStore) :
    Except String (FleetNode × FleetStore) :=
  match validateNodeName input.name with
  | some e => .error e
  | none =>
  match validateHost input.host with
  | some e => .error e
  | none =>
  match validatePort input.port with
  | some e => .error e
  | none =>
  match validateUser input.user with
  | some e => .error e
  | none =>
  if (store.nodes.find? (nodeNameMatches input.name)).isSome then
    .error ("Node with name \x27" ++ input.name ++ "\x27 already exists")
  else
    let node : FleetNode :=
      { id := id
        name := jsTrimS input.name
        host := jsTrimS input.host
        port := input.port
        user := jsTrimS input.user
        trusted := input.trusted.getD false
        hostKey := input.hostKey
        tags := input.tags.getD []
        os := none
        arch := none
        installed := input.installed
        lastSeen := input.lastSeen
        serviceStatus := none }
    .ok (node, { store with nodes := store.nodes ++ [node] })

/-- `getNode`: case-insensitive lookup (first match, or `null`). -/
def getNode (name : String) (store : FleetStore) : Option FleetNode :=
  store.nodes.find? (nodeNameMatches name)

/-- `removeNode`: splice out the first case-insensitive match. -/
def removeNode (name : String) (store : FleetStore) : Bool × FleetStore :=
  match store.nodes.findIdx? (nodeNameMatches name) with
  | none => (false, store)
  | some i => (true, { store with nodes := store.nodes.eraseIdx i })

/-- The field merge of `updateNode`.  Note: the object spread in the source
copies only `host`, `port`, `user`, `trusted`, `hostKey`, `tags`,
`installed` and `lastSeen` from the update input; `os`, `arch` and
`serviceStatus` — although members of `UpdateNodeInput` and supplied by the
bootstrap executor and the status command — are never copied, so those
three updates are silently dropped. -/
def mergeNodeUpdate (existing : FleetNode) (updates : UpdateNodeInput) : FleetNode :=
  { existing with
    host := match updates.host with
      | some h => jsTrimS h
      | none => existing.host
    port := updates.port.getD existing.port
    user := match updates.user with
      | some u => jsTrimS u
      | none => existing.user
    trusted := updates.trusted.getD existing.trusted
    hostKey := match updates.hostKey with
      | some k => some k
      | none => existing.hostKey
    tags := updates.tags.getD existing.tags
    installed := match updates.installed with
      | some v => some v
      | none => existing.installed
    lastSeen := match updates.lastSeen with
      | some v => some v
      | none => existing.lastSeen }

/-- The update-input validation at the top of `updateNode`. -/
def validateUpdateInput (updates : UpdateNodeInput) : Option String :=
  match updates.host with
  | some h =>
    match validateHost h with
    | some e => some e
    | none =>
      match updates.port with
      | some p =>
        match validatePort p with
        | some e => some e
        | none => updates.user.bind validateUser
      | none => updates.user.bind validateUser
  | none =>
    match updates.port with
    | some p =>
      match validatePort p with
      | some e => some e
      | none => updates.user.bind validateUser
    | none => updates.user.bind validateUser

/-- The locked read-modify-write core of `updateNode` (after validation):
find the node by normalized name, merge in place, write back. -/
def updateNodeCore (store : FleetStore) (name : String) (updates : UpdateNodeInput) :
    Option FleetNode × FleetStore :=
  match store.nodes.findIdx? (nodeNameMatches name) with
  | none => (none, store)
  | some i =>
    match store.nodes.get? i with
    | none => (none, store)
    | some existing =>
      let updated := mergeNodeUpdate existing updates
      (some updated, { store with nodes := store.nodes.set i updated })

/-- `updateNode`: validate the supplied fields, then merge under the lock. -/
def updateNode (store : FleetStore) (name : String) (updates : UpdateNodeInput) :
    Except String (Option FleetNode × FleetStore) :=
  match validateUpdateInput updates with
  | some e => .error e
  | none => .ok (updateNodeCore store name updates)

/-! ## SSH transport (`ssh-transport.ts`) -/

/-- `StrictHostKeyChecking` mode. -/
inductive StrictMode where
  | yes | no | acceptNew
deriving DecidableEq, Repr

/-- The string value passed on the ssh command line. -/
def StrictMode.render : StrictMode → String
  | .yes => "yes"
  | .no => "no"
  | .acceptNew => "accept-new"

/-- `SshExecOptions`. -/
structure SshExecOptions where
  host : String
  port : Int
  user : String
  command : String
  timeoutMs : Int
  knownHostsPath : String
  strictHostKeyChecking : StrictMode
deriving DecidableEq, Repr

/-- `SshExecResult`. -/
structure SshExecResult where
  stdout : String
  stderr : String
  exitCode : Option Int
  signal : Option String
  timedOut : Bool
deriving DecidableEq, Repr

/-- The argument vector handed to `/usr/bin/ssh`: option-terminator `--`
before the user-supplied address, then the remote command. -/
def sshArgs (opts : SshExecOptions) : List String :=
  [ "-o", "BatchMode=yes",
    "-o", "ConnectTimeout=5",
    "-o", "StrictHostKeyChecking=" ++ opts.strictHostKeyChecking.render,
    "-o", "UserKnownHostsFile=" ++ opts.knownHostsPath,
    "-o", "ServerAliveInterval=15",
    "-o", "ServerAliveCountMax=3",
    "-p", String.mk (natDigits opts.port.toNat),
    "--", opts.user ++ "@" ++ opts.host,
    opts.command ]

/-- `sshExec`: reject a host beginning with `-` with a synthetic failure
result before building the command line; otherwise spawn `/usr/bin/ssh`.
The child process is the `spawn` oracle. -/
def sshExec (opts : SshExecOptions) (spawn : List String → SshExecResult) :
    SshExecResult :=
  if opts.host.data.head? = some '-' then
    { stdout := ""
      stderr := "Host cannot start with \x27-\x27 (security)"
      exitCode := some 1
      signal := none
      timedOut := false }
  else
    spawn (sshArgs opts)

/-- `sshKeyscan`'s result shape. -/
structure SshKeyscanResult where
  output : String
  exitCode : Option Int
  error : Option String
deriving DecidableEq, Repr

/-- `sshKeyscan`: the same host-prefix rejection, then `/usr/bin/ssh-keyscan
-T 5 -p port host` (the child process is again an oracle). -/
def sshKeyscan (host : String) (port : Int)
    (spawn : List String → SshKeyscanResult) : SshKeyscanResult :=
  if host.data.head? = some '-' then
    { output := ""
      exitCode := some 1
      error := some "Host cannot start with \x27-\x27 (security)" }
  else
    spawn ["-T", "5", "-p", String.mk (natDigits port.toNat), host]

/-! ## Bootstrap data model (`bootstrap/types.ts`) -/

/-- Preflight fact sheet (`NodeInfo`). -/
structure NodeInfo where
  os : FleetOs
  arch : FleetArch
  homeDir : String
  hasNode : Bool
  nodeVersion : Option String
  hasNpm : Bool
  hasRaven : Bool
  ravenVersion : Option String
  hasService : Bool
  serviceRunning : Bool

/-- Bootstrap step status. -/
inductive BootstrapStepStatus where
  | pending | running | success | skipped | failed
deriving DecidableEq, Repr

/-- A bootstrap step: pure data plus an optional pure skip predicate. -/
structure BootstrapStep where
  id : String
  description : String
  commands : List String
  skippable : Bool
  skipIf : Option (NodeInfo → Bool) := none
  errorHint : Option String := none

/-- A complete bootstrap plan. -/
structure BootstrapPlan where
  node : FleetNode
  nodeInfo : NodeInfo
  steps : List BootstrapStep
  targetVersion : String
  force : Bool

/-- Result of one step.  Wall-clock durations (`Date.now()` differences) are
abstracted to `0`; no claim concerns them. -/
structure BootstrapStepResult where
  step : BootstrapStep
  status : BootstrapStepStatus
  stdout : String
  stderr : String
  error : Option String := none
  durationMs : Int := 0

/-- Result of a complete bootstrap run. -/
structure BootstrapResult where
  node : FleetNode
  success : Bool
  stepResults : List BootstrapStepResult
  installedVersion : Option String := none
  totalDurationMs : Int := 0
  error : Option String := none

/-! ## Plan builder (`bootstrap/plan-builder.ts`) -/

/-- The `npm install` command for the requested version. -/
def ravenInstallCmd (version : String) : String :=
  if version = "latest" then "npm install -g raven"
  else "npm install -g raven@" ++ version

/-- The description of the install-raven step. -/
def ravenInstallDescription (version : String) : String :=
  "Install raven" ++ (if version ≠ "latest" then " (" ++ version ++ ")" else "")

/-- `buildMacOSSteps`. -/
def buildMacOSSteps (nodeInfo : NodeInfo) (version : String) (force : Bool) :
    List BootstrapStep :=
  [ { id := "install-node"
      description := "Install Node.js via Homebrew"
      commands :=
        [ "which brew > /dev/null 2>&1 || /bin/bash -c \"$(curl -fsSL https://raw.githubusercontent.com/Homebrew/install/HEAD/install.sh)\""
        , "brew install node" ]
      skippable := true
      skipIf := some fun info => info.hasNode
      errorHint := some "Node.js installation failed. Please install Node.js manually: brew install node" }
  , { id := "install-raven"
      description := ravenInstallDescription version
      commands := [ravenInstallCmd version]
      skippable := !force
      skipIf := some fun info =>
        !force && info.hasRaven && (version = "latest" || info.ravenVersion == some version)
      errorHint := some "Raven installation failed. Check npm configuration and network connectivity." }
  , { id := "create-config-dir"
      description := "Create configuration directory"
      commands := ["mkdir -p ~/.openclaw", "chmod 700 ~/.openclaw"]
      skippable := false }
  , { id := "install-service"
      description := "Install launchd service"
      commands :=
        [ "mkdir -p ~/Library/LaunchAgents"
        , "cat > ~/Library/LaunchAgents/ai.raven.gateway.plist << \x27PLIST_EOF\x27\n<?xml version=\"1.0\" encoding=\"UTF-8\"?>\n<!DOCTYPE plist PUBLIC \"-//Apple//DTD PLIST 1.0//EN\" \"http://www.apple.com/DTDs/PropertyList-1.0.dtd\">\n<plist version=\"1.0\">\n<dict>\n    <key>Label</key>\n    <string>ai.raven.gateway</string>\n    <key>ProgramArguments</key>\n    <array>\n        <string>/usr/local/bin/raven</string>\n        <string>gateway</string>\n        <string>start</string>\n    </array>\n    <key>RunAtLoad</key>\n    <true/>\n    <key>KeepAlive</key>\n    <true/>\n    <key>StandardOutPath</key>\n    <string>/tmp/raven-gateway.stdout.log</string>\n    <key>StandardErrorPath</key>\n    <string>/tmp/raven-gateway.stderr.log</string>\n    <key>EnvironmentVariables</key>\n    <dict>\n        <key>PATH</key>\n        <string>/usr/local/bin:/usr/bin:/bin:/usr/sbin:/sbin</string>\n    </dict>\n</dict>\n</plist>\nPLIST_EOF" ]
      skippable := !force
      skipIf := some fun info => !force && info.hasService
      errorHint := some "Failed to install launchd service. Check ~/Library/LaunchAgents permissions." }
  , { id := "start-service"
      description := "Start raven gateway service"
      commands :=
        [ "launchctl unload ~/Library/LaunchAgents/ai.raven.gateway.plist 2>/dev/null || true"
        , "launchctl load ~/Library/LaunchAgents/ai.raven.gateway.plist" ]
      skippable := false
      errorHint := some "Failed to start the service. Check launchctl logs." }
  , { id := "verify-service"
      description := "Verify service is running"
      commands :=
        [ "sleep 2"
        , "launchctl list | grep -q ai.raven.gateway || (echo \x27Service not found in launchctl list\x27 && exit 1)"
        , "raven gateway status --json --timeout 5000 || (echo \x27Gateway not responding\x27 && exit 1)" ]
      skippable := false
      errorHint := some "Service verification failed. Check /tmp/raven-gateway.stderr.log for details." } ]

/-- `buildLinuxSteps`. -/
def buildLinuxSteps (nodeInfo : NodeInfo) (version : String) (force : Bool) :
    List BootstrapStep :=
  [ { id := "install-node"
      description := "Install Node.js"
      commands :=
        [ "if command -v apt-get &> /dev/null; then\n        curl -fsSL https://deb.nodesource.com/setup_20.x | sudo -E bash -\n        sudo apt-get install -y nodejs\n      elif command -v yum &> /dev/null; then\n        curl -fsSL https://rpm.nodesource.com/setup_20.x | sudo bash -\n        sudo yum install -y nodejs\n      elif command -v dnf &> /dev/null; then\n        curl -fsSL https://rpm.nodesource.com/setup_20.x | sudo bash -\n        sudo dnf install -y nodejs\n      else\n        echo \"Unsupported package manager\" && exit 1\n      fi" ]
      skippable := true
      skipIf := some fun info => info.hasNode
      errorHint := some "Node.js installation failed. Please install Node.js manually." }
  , { id := "install-raven"
      description := ravenInstallDescription version
      commands := [ravenInstallCmd version]
      skippable := !force
      skipIf := some fun info =>
        !force && info.hasRaven && (version = "latest" || info.ravenVersion == some version)
      errorHint := some "Raven installation failed. Check npm configuration and network connectivity." }
  , { id := "create-config-dir"
      description := "Create configuration directory"
      commands := ["mkdir -p ~/.openclaw", "chmod 700 ~/.openclaw"]
      skippable := false }
  , { id := "install-service"
      description := "Install systemd user service"
      commands :=
        [ "mkdir -p ~/.config/systemd/user"
        , "cat > ~/.config/systemd/user/raven-gateway.service << \x27SERVICE_EOF\x27\n[Unit]\nDescription=Raven Gateway Service\nAfter=network.target\n\n[Service]\nType=simple\nExecStart=/usr/bin/raven gateway start\nRestart=always\nRestartSec=5\nEnvironment=PATH=/usr/local/bin:/usr/bin:/bin\n\n[Install]\nWantedBy=default.target\nSERVICE_EOF"
        , "systemctl --user daemon-reload"
        , "systemctl --user enable raven-gateway" ]
      skippable := !force
      skipIf := some fun info => !force && info.hasService
      errorHint := some "Failed to install systemd service. Check ~/.config/systemd/user permissions." }
  , { id := "start-service"
      description := "Start raven gateway service"
      commands := ["systemctl --user restart raven-gateway"]
      skippable := false
      errorHint := some "Failed to start the service. Check journalctl --user -u raven-gateway for details." }
  , { id := "verify-service"
      description := "Verify service is running"
      commands :=
        [ "sleep 2"
        , "systemctl --user is-active raven-gateway"
        , "raven gateway status --json --timeout 5000 || (echo \x27Gateway not responding\x27 && exit 1)" ]
      skippable := false
      errorHint := some "Service verification failed. Check journalctl --user -u raven-gateway for details." } ]

/-- Rendering of the OS enum in the unsupported-OS error message. -/
def FleetOs.render : FleetOs → String
  | .darwin => "darwin"
  | .linux => "linux"
  | .unknown => "unknown"

/-- `buildBootstrapPlan`: OS dispatch; an unsupported OS throws. -/
def buildBootstrapPlan (node : FleetNode) (nodeInfo : NodeInfo)
    (version : Option String := none) (force : Option Bool := none) :
    Except String BootstrapPlan :=
  let v := version.getD "latest"
  let f := force.getD false
  match nodeInfo.os with
  | .darwin => .ok
    { node, nodeInfo, steps := buildMacOSSteps nodeInfo v f, targetVersion := v, force := f }
  | .linux => .ok
    { node, nodeInfo, steps := buildLinuxSteps nodeInfo v f, targetVersion := v, force := f }
  | .unknown => .error ("Unsupported operating system: " ++ FleetOs.render nodeInfo.os)

/-! ## Executor (`bootstrap/executor.ts`) -/

/-- The `SshExecOptions` the executor builds for one command of a step. -/
def stepExecOpts (node : FleetNode) (command : String) (timeoutMs : Int)
    (knownHostsPath : String) : SshExecOptions :=
  { host := node.host
    port := node.port
    user := node.user
    command := command
    timeoutMs := timeoutMs
    knownHostsPath := knownHostsPath
    strictHostKeyChecking := if node.trusted then .yes else .acceptNew }

/-- `${result.exitCode}` in the failure message (`null` when killed by a
signal). -/
def exitCodeText : Option Int → String
  | some n => String.mk (if n < 0 then '-' :: natDigits n.natAbs else natDigits n.natAbs)
  | none => "null"

/-- The command loop of `executeStep`: run each command in sequence,
accumulating stdout/stderr; stop at the first non-zero exit or timeout,
reporting which kind of failure occurred. -/
def runStepCommands (node : FleetNode) (timeoutMs : Int) (knownHostsPath : String)
    (spawn : List String → SshExecResult) :
    List String → String → String → String × String × Option (Bool × Option Int)
  | [], so, se => (so, se, none)
  | command :: rest, so, se =>
    let r := sshExec (stepExecOpts node command timeoutMs knownHostsPath) spawn
    let so := so ++ r.stdout
    let se := se ++ r.stderr
    if r.exitCode ≠ some 0 ∨ r.timedOut then (so, se, some (r.timedOut, r.exitCode))
    else runStepCommands node timeoutMs knownHostsPath spawn rest so se

/-- `executeStep`. -/
def executeStep (node : FleetNode) (step : BootstrapStep) (knownHostsPath : String)
    (timeoutMs : Int) (spawn : List String → SshExecResult) : BootstrapStepResult :=
  match runStepCommands node timeoutMs knownHostsPath spawn step.commands "" "" with
  | (so, se, none) =>
    { step, status := .success, stdout := so, stderr := se }
  | (so, se, some (timedOut, exitCode)) =>
    { step
      status := .failed
      stdout := so
      stderr := se
      error := some (if timedOut then "Command timed out"
        else match step.errorHint with
          | some h => if h = "" then "Command failed with exit code " ++ exitCodeText exitCode else h
          | none => "Command failed with exit code " ++ exitCodeText exitCode) }

/-- The step loop of `executeBootstrapPlan`: returns the recorded step
results and whether a step failed (the loop aborts there; later steps are
not visited).  The `onProgress` callback is pure notification and is not
modelled. -/
def executeSteps (node : FleetNode) (nodeInfo : NodeInfo) (dryRun : Bool)
    (knownHostsPath : String) (timeoutMs : Int)
    (spawn : List String → SshExecResult) :
    List BootstrapStep → List BootstrapStepResult × Bool
  | [] => ([], false)
  | step :: rest =>
    let shouldSkip := (step.skipIf.map (fun p => p nodeInfo)).getD false
    if shouldSkip then
      let (rs, aborted) := executeSteps node nodeInfo dryRun knownHostsPath timeoutMs spawn rest
      ({ step, status := .skipped, stdout := "", stderr := "" } :: rs, aborted)
    else if dryRun then
      let (rs, aborted) := executeSteps node nodeInfo dryRun knownHostsPath timeoutMs spawn rest
      ({ step, status := .success, stdout := "[DRY RUN] Commands not executed", stderr := "" } :: rs, aborted)
    else
      let r := executeStep node step knownHostsPath timeoutMs spawn
      if r.status = .failed then ([r], true)
      else
        let (rs, aborted) := executeSteps node nodeInfo dryRun knownHostsPath timeoutMs spawn rest
        (r :: rs, aborted)

/-- The store update the executor issues after a fully successful non-dry
run: fact-sheet OS/architecture, the installation record, a fresh
last-seen timestamp and a running service status. -/
def executorUpdates (plan : BootstrapPlan) (now : String) : UpdateNodeInput :=
  { os := some plan.nodeInfo.os
    arch := some plan.nodeInfo.arch
    installed := some ⟨plan.targetVersion, now⟩
    lastSeen := some now
    serviceStatus := some .running }

/-- `executeBootstrapPlan`: run the steps in order, abort at the first
failure, and on full success (non-dry-run) update the node in the store.
`now` is `new Date().toISOString()`; the store read under the lock is the
`store` argument and the written store is returned.  A thrown store
validation error would propagate (`Except.error`); for the executor's
update input none can occur. -/
def executeBootstrapPlan (plan : BootstrapPlan) (dryRun : Bool)
    (knownHostsPath : String) (commandTimeoutMs : Int)
    (spawn : List String → SshExecResult) (store : FleetStore) (now : String) :
    Except String (BootstrapResult × FleetStore) :=
  let (results, aborted) :=
    executeSteps plan.node plan.nodeInfo dryRun knownHostsPath commandTimeoutMs spawn plan.steps
  if aborted then
    .ok
      ( { node := plan.node
          success := false
          stepResults := results
          error := (results.getLast?).bind (·.error) }
      , store )
  else if dryRun then
    .ok
      ( { node := plan.node
          success := true
          stepResults := results
          installedVersion := some plan.targetVersion }
      , store )
  else
    match updateNode store plan.node.name (executorUpdates plan now) with
    | .error e => .error e
    | .ok (_, store') =>
      .ok
        ( { node := plan.node
            success := true
            stepResults := results
            installedVersion := some plan.targetVersion }
        , store' )

/-! ## Diagnostics prober (`commands/fleet/status.ts`) -/

/-- Decimal string of an integer-valued JS number. -/
def intString (n : Int) : String :=
  String.mk (if n < 0 then '-' :: natDigits n.natAbs else natDigits n.natAbs)

/-- The composite diagnostics command sent over the transport. -/
def diagCommand : String :=
  "\n    echo \"DIAG_START\"\n    # Get version\n    if command -v raven &> /dev/null; then\n      echo \"VERSION:$(raven --version 2>/dev/null | head -1)\"\n    else\n      echo \"VERSION:NOT_FOUND\"\n    fi\n    # Check service status\n    if [ \"$(uname)\" = \"Darwin\" ]; then\n      # macOS - check launchd\n      if launchctl list 2>/dev/null | grep -q \"ai.raven.gateway\"; then\n        echo \"SERVICE:running\"\n      else\n        echo \"SERVICE:stopped\"\n      fi\n    else\n      # Linux - check systemd\n      if systemctl --user is-active raven-gateway &>/dev/null; then\n        echo \"SERVICE:running\"\n      else\n        echo \"SERVICE:stopped\"\n      fi\n    fi\n    # Try to get gateway status\n    echo \"STATUS_JSON:$(raven gateway status --json --timeout 3000 2>/dev/null || echo \x27\x7b\x7d\x27)\"\n    echo \"DIAG_END\"\n  "

/-- A character `.` can match in a JS RegExp (everything except the four
line terminators). -/
def notLineTerm (c : Char) : Bool :=
  !(c = '\n' ∨ c = '\r' ∨ c.toNat = 0x2028 ∨ c.toNat = 0x2029)

/-- First match of `/LABEL(.+)/`: scan left to right for the label followed
by at least one non-line-terminator character; return the capture. -/
def regexCaptureLine (label : Str) : Str → Option Str
  | [] => none
  | c :: cs =>
    if label.isPrefixOf (c :: cs) then
      let cap := ((c :: cs).drop label.length).takeWhile notLineTerm
      if cap ≠ [] then some cap else regexCaptureLine label cs
    else regexCaptureLine label cs

/-- First match of `/SERVICE:(running|stopped)/`: the captured alternative. -/
def serviceCapture : Str → Option Str
  | [] => none
  | c :: cs =>
    if ("SERVICE:running".data).isPrefixOf (c :: cs) then some "running".data
    else if ("SERVICE:stopped".data).isPrefixOf (c :: cs) then some "stopped".data
    else serviceCapture cs

/-- `s.includes(sub)`. -/
def strIncludes (hay needle : Str) : Bool :=
  match hay with
  | [] => needle.isEmpty
  | _ :: rest => needle.isPrefixOf hay || strIncludes rest needle

/-- `/^(\d+\.\d+\.\d+)/`-style first alternative of `parseVersion`'s RegExp
at one position. -/
def matchSemverAt (s : Str) : Option Str :=
  let d1 := s.takeWhile isDigitChar
  if d1 = [] then none
  else
    match s.dropWhile isDigitChar with
    | '.' :: r2 =>
      let d2 := r2.takeWhile isDigitChar
      if d2 = [] then none
      else
        match r2.dropWhile isDigitChar with
        | '.' :: r3 =>
          let d3 := r3.takeWhile isDigitChar
          if d3 = [] then none
          else some (d1 ++ '.' :: d2 ++ '.' :: d3)
        | _ => none
    | _ => none

/-- Scan of `/(\d+\.\d+\.\d+|[a-f0-9]{7,40})/i`: leftmost position wins; at
one position the dotted-triple alternative is preferred, else a greedy run
of 7 to 40 hex characters. -/
def versionScan : Str → Option Str
  | [] => none
  | c :: cs =>
    match matchSemverAt (c :: cs) with
    | some m => some m
    | none =>
      let hexRun := (c :: cs).takeWhile isHexChar
      if hexRun.length ≥ 7 then some (hexRun.take 40) else versionScan cs

/-- `parseVersion`: trim, then the first RegExp match (or `null`). -/
def parseVersion (output : Str) : Option Str :=
  versionScan (jsTrim output)

/-- `formatUptimeMs` (`Math.floor` is floor division). -/
def formatUptimeMs (ms : Int) : String :=
  let seconds := ms.fdiv 1000
  let minutes := seconds.fdiv 60
  let hours := minutes.fdiv 60
  let days := hours.fdiv 24
  if days > 0 then intString days ++ "d " ++ intString (hours.emod 24) ++ "h"
  else if hours > 0 then intString hours ++ "h " ++ intString (minutes.emod 60) ++ "m"
  else if minutes > 0 then intString minutes ++ "m " ++ intString (seconds.emod 60) ++ "s"
  else intString seconds ++ "s"

/-- `parseUptime`: `JSON.parse` the status blob; a string uptime is kept, a
numeric uptime is formatted, anything else (including a parse error) is
`null`. -/
def parseUptime (statusJson : Str) : Option String :=
  match jsonParse statusJson with
  | none => none
  | some j =>
    match jsonGet j "uptime".data with
    | some (.str s) => some (String.mk s)
    | some (.num n) => some (formatUptimeMs n)
    | _ => none

/-- `NodeDiagnostics`. -/
structure NodeDiagnostics where
  name : String
  host : String
  online : Bool
  serviceRunning : Bool
  serviceStatus : ServiceStatus
  version : Option String
  uptime : Option String
  lastSeen : Option String
  error : Option String
  latencyMs : Option Int
deriving DecidableEq, Repr

/-- The classification core of `runNodeDiagnostics`, applied to the
transport result of the composite probe (`latencyMs` is the measured
`Date.now()` difference and `now` the refresh timestamp). -/
def runNodeDiagnostics (node : FleetNode) (result : SshExecResult)
    (now : String) (latencyMs : Int) : NodeDiagnostics :=
  if result.timedOut then
    { name := node.name
      host := node.host
      online := false
      serviceRunning := false
      serviceStatus := .unknown
      version := none
      uptime := none
      lastSeen := node.lastSeen
      error := some "Connection timed out"
      latencyMs := none }
  else if result.exitCode ≠ some 0 ∧ !(strIncludes result.stdout.data "DIAG_START".data) then
    { name := node.name
      host := node.host
      online := false
      serviceRunning := false
      serviceStatus := .unknown
      version := none
      uptime := none
      lastSeen := node.lastSeen
      error := some (if result.stderr = "" then "SSH exit code: " ++ exitCodeText result.exitCode
        else result.stderr)
      latencyMs := some latencyMs }
  else
    let output := result.stdout.data
    let version : Option String :=
      match regexCaptureLine "VERSION:".data output with
      | some m =>
        if m ≠ "NOT_FOUND".data then
          match parseVersion m with
          | some v => some (String.mk v)
          | none => some (jsTrimS (String.mk m))
        else none
      | none => none
    let serviceStatus : ServiceStatus :=
      match serviceCapture output with
      | some s => if s = "running".data then .running else .stopped
      | none => .unknown
    let uptime : Option String :=
      match regexCaptureLine "STATUS_JSON:".data output with
      | some m => parseUptime m
      | none => none
    { name := node.name
      host := node.host
      online := true
      serviceRunning := serviceStatus = .running
      serviceStatus := serviceStatus
      version := version
      uptime := uptime
      lastSeen := some now
      error := none
      latencyMs := some latencyMs }

/-! ## Theorems -/

/-- C1: every `sshExec` call and every `sshKeyscan` call whose host begins
with `-` returns the synthetic rejection result — independent of the spawn
oracle, so no child process is consulted; for `sshExec` the result has exit
code 1, empty stdout, `timedOut = false` and the rejection message in
stderr. -/
theorem sshExec_sshKeyscan_reject_flag_host
    (opts : SshExecOptions) (spawn : List String → SshExecResult)
    (host : String) (port : Int) (spawn2 : List String → SshKeyscanResult)
    (hexec : opts.host.data.head? = some '-')
    (hscan : host.data.head? = some '-') :
    sshExec opts spawn =
      { stdout := ""
        stderr := "Host cannot start with \x27-\x27 (security)"
        exitCode := some 1
        signal := none
        timedOut := false } ∧
    sshKeyscan host port spawn2 =
      { output := ""
        exitCode := some 1
        error := some "Host cannot start with \x27-\x27 (security)" } := by
  constructor
  · unfold sshExec
    rw [if_pos hexec]
  · unfold sshKeyscan
    rw [if_pos hscan]

/-- Concrete transport options for the C1 witness, using the host value the
spec names. -/
def c1Opts : SshExecOptions :=
  { host := "-oProxyCommand=evil"
    port := 22
    user := "root"
    command := "true"
    timeoutMs := 1000
    knownHostsPath := "/tmp/kh"
    strictHostKeyChecking := .acceptNew }

/-- A spawn oracle that would report success if it were ever consulted. -/
def c1Spawn : List String → SshExecResult := fun _ =>
  { stdout := "spawned", stderr := "", exitCode := some 0, signal := none, timedOut := false }

/-- A keyscan spawn oracle that would report success if consulted. -/
def c1Spawn2 : List String → SshKeyscanResult := fun _ =>
  { output := "spawned", exitCode := some 0, error := none }

/-- C1 witness: the theorem applied at host `"-oProxyCommand=evil"`. -/
theorem sshExec_sshKeyscan_reject_flag_host_witness :
    (c1Opts.host.data.head? = some '-' ∧
      ("-oProxyCommand=evil" : String).data.head? = some '-') ∧
    (sshExec c1Opts c1Spawn =
      { stdout := ""
        stderr := "Host cannot start with \x27-\x27 (security)"
        exitCode := some 1
        signal := none
        timedOut := false } ∧
    sshKeyscan "-oProxyCommand=evil" 22 c1Spawn2 =
      { output := ""
        exitCode := some 1
        error := some "Host cannot start with \x27-\x27 (security)" }) :=
  ⟨⟨by decide, by decide⟩,
    sshExec_sshKeyscan_reject_flag_host c1Opts c1Spawn "-oProxyCommand=evil" 22 c1Spawn2
      (by decide) (by decide)⟩

/-- C8: on exit code 0 with the sentinel diagnostics output, the prober
reports online with a null version (the `NOT_FOUND` sentinel), a stopped
non-running service, and a null uptime from the empty status JSON object. -/
theorem runNodeDiagnostics_sentinel_output (node : FleetNode) (now : String)
    (latencyMs : Int) :
    (runNodeDiagnostics node
      { stdout := "DIAG_START\nVERSION:NOT_FOUND\nSERVICE:stopped\nSTATUS_JSON:\x7b\x7d\nDIAG_END"
        stderr := ""
        exitCode := some 0
        signal := none
        timedOut := false } now latencyMs).online = true ∧
    (runNodeDiagnostics node
      { stdout := "DIAG_START\nVERSION:NOT_FOUND\nSERVICE:stopped\nSTATUS_JSON:\x7b\x7d\nDIAG_END"
        stderr := ""
        exitCode := some 0
        signal := none
        timedOut := false } now latencyMs).version = none ∧
    (runNodeDiagnostics node
      { stdout := "DIAG_START\nVERSION:NOT_FOUND\nSERVICE:stopped\nSTATUS_JSON:\x7b\x7d\nDIAG_END"
        stderr := ""
        exitCode := some 0
        signal := none
        timedOut := false } now latencyMs).serviceRunning = false ∧
    (runNodeDiagnostics node
      { stdout := "DIAG_START\nVERSION:NOT_FOUND\nSERVICE:stopped\nSTATUS_JSON:\x7b\x7d\nDIAG_END"
        stderr := ""
        exitCode := some 0
        signal := none
        timedOut := false } now latencyMs).serviceStatus = .stopped ∧
    (runNodeDiagnostics node
      { stdout := "DIAG_START\nVERSION:NOT_FOUND\nSERVICE:stopped\nSTATUS_JSON:\x7b\x7d\nDIAG_END"
        stderr := ""
        exitCode := some 0
        signal := none
        timedOut := false } now latencyMs).uptime = none :=
  ⟨rfl, rfl, rfl, rfl, rfl⟩

/-- C9: whenever the inventory file's content is not valid JSON, or parses
but fails the versioned `FleetStoreSchema` check (in particular when the
schema-version field is not the literal 1), `loadFleetStore` returns the
empty inventory; the function is total, so no failure mode reaches the
caller. -/
theorem loadFleetStore_invalid_returns_empty (raw : Str)
    (h : (jsonParse raw).bind zodFleetStore = none) :
    loadFleetStore (some raw) = createEmptyFleetStore := by
  cases hj : jsonParse raw with
  | none => simp [loadFleetStore, hj]
  | some j =>
    rw [hj] at h
    simp only [Option.some_bind] at h
    simp [loadFleetStore, hj, h]

/-- C9 witness: a syntactically valid file whose schema-version field is 2
(and, bundled, a corrupt non-JSON file) both load as the empty inventory. -/
theorem loadFleetStore_invalid_returns_empty_witness :
    ((jsonParse "\x7b\"schemaVersion\":2,\"nodes\":[]\x7d".data).bind zodFleetStore = none ∧
      (jsonParse "not json \x7b".data).bind zodFleetStore = none) ∧
    (loadFleetStore (some "\x7b\"schemaVersion\":2,\"nodes\":[]\x7d".data) = createEmptyFleetStore ∧
      loadFleetStore (some "not json \x7b".data) = createEmptyFleetStore) :=
  ⟨⟨by decide, by decide⟩,
    ⟨loadFleetStore_invalid_returns_empty _ (by decide),
      loadFleetStore_invalid_returns_empty _ (by decide)⟩⟩

/-- `sameTuple` is symmetric-reflexive on entries agreeing on the tuple. -/
theorem sameTuple_self (e : HostKeyEntry) : sameTuple e e = true := by
  simp [sameTuple]

/-- "Same host and port, different algorithm" — the entries C4 requires
`pinHostKey` to preserve. -/
def otherAlg (e x : HostKeyEntry) : Bool :=
  x.host = e.host ∧ x.port = e.port ∧ x.keyType ≠ e.keyType

/-- C4: `pinHostKey` is idempotent per `(host, port, keyType)` tuple —
pinning the same entry twice is pinning it once, and leaves exactly one
entry for its tuple; pinning a (possibly different) key for the same tuple
leaves exactly the new entry for that tuple while every entry for a
different algorithm at the same host and port is preserved unchanged. -/
theorem pinHostKey_idempotent_per_tuple (l : List HostKeyEntry)
    (e e' : HostKeyEntry)
    (hh : e'.host = e.host) (hp : e'.port = e.port) (ht : e'.keyType = e.keyType) :
    pinHostKey (pinHostKey l e) e = pinHostKey l e ∧
    (pinHostKey (pinHostKey l e) e).countP (fun x => sameTuple x e) = 1 ∧
    (pinHostKey l e').filter (fun x => sameTuple x e) = [e'] ∧
    (pinHostKey l e').filter (otherAlg e) = l.filter (otherAlg e) := by
  have hsame : ∀ x, sameTuple x e' = sameTuple x e := by
    intro x
    simp [sameTuple, hh, hp, ht]
  have hidem : pinHostKey (pinHostKey l e) e = pinHostKey l e := by
    unfold pinHostKey
    rw [List.filter_append, List.filter_filter]
    simp [sameTuple_self]
  refine ⟨hidem, ?_, ?_, ?_⟩
  · rw [hidem]
    unfold pinHostKey
    rw [List.countP_append]
    have h0 : (l.filter fun x => !sameTuple x e).countP (fun x => sameTuple x e) = 0 := by
      rw [List.countP_eq_zero]
      intro a ha
      have := (List.mem_filter.mp ha).2
      simpa using this
    simp [h0, List.countP_cons, sameTuple_self]
  · unfold pinHostKey
    rw [List.filter_append]
    have h0 : (l.filter fun x => !sameTuple x e').filter (fun x => sameTuple x e) = [] := by
      rw [List.filter_eq_nil_iff]
      intro a ha
      have := (List.mem_filter.mp ha).2
      rw [hsame] at this
      simpa using this
    have h1 : sameTuple e' e = true := by simp [sameTuple, hh, hp, ht]
    simp [h0, h1]
  · unfold pinHostKey
    rw [List.filter_append, List.filter_filter]
    have h1 : otherAlg e e' = false := by simp [otherAlg, ht]
    have h2 : List.filter (fun x => otherAlg e x && !sameTuple x e') l =
        List.filter (fun x => otherAlg e x) l := by
      apply List.filter_congr
      intro x _
      cases hx : otherAlg e x with
      | false => simp
      | true =>
        have hs : sameTuple x e' = false := by
          simp only [otherAlg, decide_eq_true_eq, Bool.and_eq_true] at hx
          have hne : x.keyType ≠ e'.keyType := by
            rw [ht]
            exact hx.2.2
          simp [sameTuple, hne]
        simp [hs]
    rw [h2]
    simp [h1]

/-- C4 witness entries: a pinned key, a rotated key for the same tuple, and
a different-algorithm entry at the same address. -/
def c4Entry : HostKeyEntry :=
  ⟨"edge.example".data, 22, "ssh-ed25519".data, "KEYONE".data⟩

/-- C4 witness: the rotated key for the same tuple. -/
def c4Entry' : HostKeyEntry :=
  ⟨"edge.example".data, 22, "ssh-ed25519".data, "KEYTWO".data⟩

/-- C4 witness: a starting list also holding an ssh-rsa pin for the host. -/
def c4List : List HostKeyEntry :=
  [⟨"edge.example".data, 22, "ssh-rsa".data, "RSAKEY".data⟩, c4Entry]

/-- C4 witness: the theorem applied to the concrete entries. -/
theorem pinHostKey_idempotent_per_tuple_witness :
    (c4Entry'.host = c4Entry.host ∧ c4Entry'.port = c4Entry.port ∧
      c4Entry'.keyType = c4Entry.keyType) ∧
    (pinHostKey (pinHostKey c4List c4Entry) c4Entry = pinHostKey c4List c4Entry ∧
    (pinHostKey (pinHostKey c4List c4Entry) c4Entry).countP
        (fun x => sameTuple x c4Entry) = 1 ∧
    (pinHostKey c4List c4Entry').filter (fun x => sameTuple x c4Entry) = [c4Entry'] ∧
    (pinHostKey c4List c4Entry').filter (otherAlg c4Entry) =
      c4List.filter (otherAlg c4Entry)) :=
  ⟨⟨by decide, by decide, by decide⟩,
    pinHostKey_idempotent_per_tuple c4List c4Entry c4Entry'
      (by decide) (by decide) (by decide)⟩

/-- The node the C3 evaluation bootstraps. -/
def c3Node : FleetNode :=
  { id := "3f2504e0-4f89-41d3-9a0c-0305e82c3301"
    name := "edge-1"
    host := "10.0.0.5"
    port := 22
    user := "admin"
    trusted := false
    hostKey := none
    tags := []
    os := none
    arch := none
    installed := none
    lastSeen := none
    serviceStatus := none }

/-- The C3 fact sheet: a Linux box with the runtime, agent version 2.0.0 and
the service already present, so the three skippable steps skip and the
remaining steps run. -/
def c3Info : NodeInfo :=
  { os := .linux
    arch := .x64
    homeDir := "/home/admin"
    hasNode := true
    nodeVersion := some "20.11.1"
    hasNpm := true
    hasRaven := true
    ravenVersion := some "2.0.0"
    hasService := true
    serviceRunning := true }

/-- A spawn oracle on which every remote command exits 0. -/
def c3Spawn : List String → SshExecResult := fun _ =>
  { stdout := "", stderr := "", exitCode := some 0, signal := none, timedOut := false }

/-- The inventory the C3 evaluation starts from: just `edge-1`. -/
def c3Store : FleetStore := { schemaVersion := 1, nodes := [c3Node] }

/-- The completion timestamp of the C3 run. -/
def c3Now : String := "2026-02-03T04:05:06.000Z"

/-- C3 (code bug): a fully successful non-dry-run plan for `edge-1` at
target version 2.0.0 returns `success = true` / `installedVersion 2.0.0`
and stores the installation record and last-seen timestamp — but the
stored record's `serviceStatus`, `os` and `arch` remain `none` rather
than `running`/`linux`/`x64`: the executor passes all five fields to
`updateNode`, whose merge copies only `host`/`port`/`user`/`trusted`/
`hostKey`/`tags`/`installed`/`lastSeen` and silently drops the other
three, contradicting `UpdateNodeInput`, the executor and the status
command, which all treat them as updatable.  -/
theorem executeBootstrapPlan_store_update_drops_service_status :
    ((buildBootstrapPlan c3Node c3Info (some "2.0.0") none).toOption.bind fun plan =>
      (executeBootstrapPlan plan false "/tmp/kh" 120000 c3Spawn c3Store c3Now).toOption.map
        fun p =>
          (p.1.success, p.1.installedVersion,
            p.2.nodes.map fun n =>
              (n.name, n.installed, n.lastSeen, n.serviceStatus, n.os, n.arch))) =
    some (true, some "2.0.0",
      [("edge-1", some ⟨"2.0.0", c3Now⟩, some c3Now, none, none, none)]) := by
  rfl

/-- C7: for a fact sheet reporting the agent installed at 1.2.3, the
install-raven step of both OS step builders is `skippable = true` with a
skip predicate holding on that fact sheet when `force = false`, and
`skippable = false` with a failing predicate when `force = true`; and at
the sentinel version `"latest"` the predicate holds exactly when the fact
sheet reports any agent installed and force is off. -/
theorem install_raven_skip_predicate (info : NodeInfo)
    (hR : info.hasRaven = true) (hV : info.ravenVersion = some "1.2.3") :
    (((buildMacOSSteps info "1.2.3" false).get? 1).map
        (fun s => (s.id, s.skippable, s.skipIf.map (fun p => p info))) =
      some ("install-raven", true, some true)) ∧
    (((buildMacOSSteps info "1.2.3" true).get? 1).map
        (fun s => (s.id, s.skippable, s.skipIf.map (fun p => p info))) =
      some ("install-raven", false, some false)) ∧
    (((buildLinuxSteps info "1.2.3" false).get? 1).map
        (fun s => (s.id, s.skippable, s.skipIf.map (fun p => p info))) =
      some ("install-raven", true, some true)) ∧
    (((buildLinuxSteps info "1.2.3" true).get? 1).map
        (fun s => (s.id, s.skippable, s.skipIf.map (fun p => p info))) =
      some ("install-raven", false, some false)) ∧
    (∀ (info2 : NodeInfo) (force : Bool),
      (((buildMacOSSteps info2 "latest" force).get? 1).map
          (fun s => s.skipIf.map (fun p => p info2)) =
        some (some (!force && info2.hasRaven))) ∧
      (((buildLinuxSteps info2 "latest" force).get? 1).map
          (fun s => s.skipIf.map (fun p => p info2)) =
        some (some (!force && info2.hasRaven)))) := by
  refine ⟨?_, ?_, ?_, ?_, ?_⟩
  · simp [buildMacOSSteps, hR, hV]
  · simp [buildMacOSSteps]
  · simp [buildLinuxSteps, hR, hV]
  · simp [buildLinuxSteps]
  · intro info2 force
    constructor
    · simp [buildMacOSSteps]
    · simp [buildLinuxSteps]

/-- C7 witness fact sheet: agent installed at 1.2.3. -/
def c7Info : NodeInfo :=
  { os := .darwin
    arch := .arm64
    homeDir := "/Users/admin"
    hasNode := true
    nodeVersion := some "20.11.1"
    hasNpm := true
    hasRaven := true
    ravenVersion := some "1.2.3"
    hasService := false
    serviceRunning := false }

/-- C7 witness: the theorem applied to the concrete fact sheet. -/
theorem install_raven_skip_predicate_witness :
    (c7Info.hasRaven = true ∧ c7Info.ravenVersion = some "1.2.3") ∧
    ((((buildMacOSSteps c7Info "1.2.3" false).get? 1).map
        (fun s => (s.id, s.skippable, s.skipIf.map (fun p => p c7Info))) =
      some ("install-raven", true, some true)) ∧
    (((buildMacOSSteps c7Info "1.2.3" true).get? 1).map
        (fun s => (s.id, s.skippable, s.skipIf.map (fun p => p c7Info))) =
      some ("install-raven", false, some false)) ∧
    (((buildLinuxSteps c7Info "1.2.3" false).get? 1).map
        (fun s => (s.id, s.skippable, s.skipIf.map (fun p => p c7Info))) =
      some ("install-raven", true, some true)) ∧
    (((buildLinuxSteps c7Info "1.2.3" true).get? 1).map
        (fun s => (s.id, s.skippable, s.skipIf.map (fun p => p c7Info))) =
      some ("install-raven", false, some false)) ∧
    (∀ (info2 : NodeInfo) (force : Bool),
      (((buildMacOSSteps info2 "latest" force).get? 1).map
          (fun s => s.skipIf.map (fun p => p info2)) =
        some (some (!force && info2.hasRaven))) ∧
      (((buildLinuxSteps info2 "latest" force).get? 1).map
          (fun s => s.skipIf.map (fun p => p info2)) =
        some (some (!force && info2.hasRaven))))) :=
  ⟨⟨rfl, rfl⟩, install_raven_skip_predicate c7Info rfl rfl⟩

/-- C10: every accepted partial update leaves the stored node's `id` and
`name` unchanged, keeps the stored value of every field not present in the
update, keeps the record at its list position, and leaves every other node
of the inventory untouched.  (The `os`, `arch` and `serviceStatus`
conjuncts hold even unconditionally, since the merge never copies them.) -/
theorem updateNode_frame (store : FleetStore) (name : String)
    (updates : UpdateNodeInput) (node' : FleetNode) (store' : FleetStore)
    (h : updateNode store name updates = .ok (some node', store')) :
    ∃ i existing, store.nodes.get? i = some existing ∧
      node'.id = existing.id ∧
      node'.name = existing.name ∧
      store'.nodes.get? i = some node' ∧
      store'.nodes.length = store.nodes.length ∧
      (∀ j, j ≠ i → store'.nodes.get? j = store.nodes.get? j) ∧
      (updates.host = none → node'.host = existing.host) ∧
      (updates.port = none → node'.port = existing.port) ∧
      (updates.user = none → node'.user = existing.user) ∧
      (updates.trusted = none → node'.trusted = existing.trusted) ∧
      (updates.hostKey = none → node'.hostKey = existing.hostKey) ∧
      (updates.tags = none → node'.tags = existing.tags) ∧
      (updates.installed = none → node'.installed = existing.installed) ∧
      (updates.lastSeen = none → node'.lastSeen = existing.lastSeen) ∧
      (updates.os = none → node'.os = existing.os) ∧
      (updates.arch = none → node'.arch = existing.arch) ∧
      (updates.serviceStatus = none → node'.serviceStatus = existing.serviceStatus) := by
  unfold updateNode at h
  cases hv : validateUpdateInput updates with
  | some e => rw [hv] at h; exact absurd h (by simp)
  | none =>
    rw [hv] at h
    have hcore : updateNodeCore store name updates = (some node', store') := by
      injection h
    cases hidx : store.nodes.findIdx? (nodeNameMatches name) with
    | none => simp only [updateNodeCore, hidx] at hcore; simp at hcore
    | some i =>
      cases hget : store.nodes.get? i with
      | none => simp only [updateNodeCore, hidx, hget] at hcore; simp at hcore
      | some existing =>
        simp only [updateNodeCore, hidx, hget] at hcore
        simp only [Prod.mk.injEq, Option.some.injEq] at hcore
        obtain ⟨hnode, hstore⟩ := hcore
        refine ⟨i, existing, hget, ?_⟩
        subst hnode
        have hnodes : store'.nodes = store.nodes.set i (mergeNodeUpdate existing updates) := by
          rw [← hstore]
        have hlen : i < store.nodes.length := by
          by_contra hge
          rw [List.get?_eq_getElem?, List.getElem?_eq_none (by omega)] at hget
          exact absurd hget (by simp)
        refine ⟨rfl, rfl, ?_, ?_, ?_, ?_, ?_, ?_, ?_, ?_, ?_, ?_, ?_, ?_, ?_, ?_⟩
        · rw [hnodes, List.get?_eq_getElem?, List.getElem?_set_self hlen]
        · rw [hnodes, List.length_set]
        · intro j hj
          rw [hnodes, List.get?_eq_getElem?, List.getElem?_set_ne (fun he => hj he.symm),
            List.get?_eq_getElem?]
        · intro hn; simp [mergeNodeUpdate, hn]
        · intro hn; simp [mergeNodeUpdate, hn]
        · intro hn; simp [mergeNodeUpdate, hn]
        · intro hn; simp [mergeNodeUpdate, hn]
        · intro hn; simp [mergeNodeUpdate, hn]
        · intro hn; simp [mergeNodeUpdate, hn]
        · intro hn; simp [mergeNodeUpdate, hn]
        · intro hn; simp [mergeNodeUpdate, hn]
        · intro _; rfl
        · intro _; rfl
        · intro _; rfl

/-- C10 witness: first stored node. -/
def c10NodeA : FleetNode :=
  { id := "3f2504e0-4f89-41d3-9a0c-0305e82c3302"
    name := "alpha"
    host := "10.0.0.1"
    port := 22
    user := "root"
    trusted := false
    hostKey := none
    tags := ["dev"]
    os := none
    arch := none
    installed := none
    lastSeen := none
    serviceStatus := none }

/-- C10 witness: second stored node. -/
def c10NodeB : FleetNode :=
  { id := "3f2504e0-4f89-41d3-9a0c-0305e82c3303"
    name := "beta"
    host := "10.0.0.2"
    port := 2222
    user := "ops"
    trusted := true
    hostKey := some "ssh-ed25519 KEY"
    tags := []
    os := some .linux
    arch := some .x64
    installed := none
    lastSeen := none
    serviceStatus := some .unknown }

/-- C10 witness: the two-node inventory. -/
def c10Store : FleetStore := { schemaVersion := 1, nodes := [c10NodeA, c10NodeB] }

/-- C10 witness: a partial update touching only two fields. -/
def c10Updates : UpdateNodeInput :=
  { trusted := some true, lastSeen := some "2026-01-01T00:00:00.000Z" }

/-- C10 witness: the merged record the update produces. -/
def c10NodeA' : FleetNode :=
  { c10NodeA with trusted := true, lastSeen := some "2026-01-01T00:00:00.000Z" }

/-- C10 witness: the written inventory. -/
def c10Store' : FleetStore := { schemaVersion := 1, nodes := [c10NodeA', c10NodeB] }

/-- C10 witness: the theorem applied to the concrete update. -/
theorem updateNode_frame_witness :
    (updateNode c10Store "alpha" c10Updates = .ok (some c10NodeA', c10Store')) ∧
    (∃ i existing, c10Store.nodes.get? i = some existing ∧
      c10NodeA'.id = existing.id ∧
      c10NodeA'.name = existing.name ∧
      c10Store'.nodes.get? i = some c10NodeA' ∧
      c10Store'.nodes.length = c10Store.nodes.length ∧
      (∀ j, j ≠ i → c10Store'.nodes.get? j = c10Store.nodes.get? j) ∧
      (c10Updates.host = none → c10NodeA'.host = existing.host) ∧
      (c10Updates.port = none → c10NodeA'.port = existing.port) ∧
      (c10Updates.user = none → c10NodeA'.user = existing.user) ∧
      (c10Updates.trusted = none → c10NodeA'.trusted = existing.trusted) ∧
      (c10Updates.hostKey = none → c10NodeA'.hostKey = existing.hostKey) ∧
      (c10Updates.tags = none → c10NodeA'.tags = existing.tags) ∧
      (c10Updates.installed = none → c10NodeA'.installed = existing.installed) ∧
      (c10Updates.lastSeen = none → c10NodeA'.lastSeen = existing.lastSeen) ∧
      (c10Updates.os = none → c10NodeA'.os = existing.os) ∧
      (c10Updates.arch = none → c10NodeA'.arch = existing.arch) ∧
      (c10Updates.serviceStatus = none → c10NodeA'.serviceStatus = existing.serviceStatus)) :=
  ⟨rfl, updateNode_frame c10Store "alpha" c10Updates c10NodeA' c10Store' rfl⟩

/-- `getLast?` skips a cons onto a non-empty list. -/
theorem getLast?_cons_of_ne_nil {α : Type} (a : α) {l : List α} (h : l ≠ []) :
    (a :: l).getLast? = l.getLast? := by
  cases l with
  | nil => exact absurd rfl h
  | cons b m => simp [List.getLast?_cons_cons]

/-- `executeStep` reports the step it executed. -/
theorem executeStep_step (node : FleetNode) (step : BootstrapStep)
    (khp : String) (tmo : Int) (spawn : List String → SshExecResult) :
    (executeStep node step khp tmo spawn).step = step := by
  unfold executeStep
  rcases runStepCommands node tmo khp spawn step.commands "" "" with ⟨so, se, f⟩
  cases f <;> rfl

/-- The invariants of the executor's step loop: when it aborts, the recorded
results are a prefix of the plan ending in exactly one failed result; when
it does not abort, every step is recorded and none failed. -/
theorem executeSteps_spec (node : FleetNode) (info : NodeInfo) (dryRun : Bool)
    (khp : String) (tmo : Int) (spawn : List String → SshExecResult) :
    ∀ steps : List BootstrapStep,
      ((executeSteps node info dryRun khp tmo spawn steps).2 = true →
        (executeSteps node info dryRun khp tmo spawn steps).1 ≠ [] ∧
        ((executeSteps node info dryRun khp tmo spawn steps).1.getLast?).map
            (fun r => r.status) = some .failed ∧
        (∀ r ∈ (executeSteps node info dryRun khp tmo spawn steps).1.dropLast,
          r.status ≠ .failed) ∧
        (executeSteps node info dryRun khp tmo spawn steps).1.map (fun r => r.step) =
          steps.take (executeSteps node info dryRun khp tmo spawn steps).1.length) ∧
      ((executeSteps node info dryRun khp tmo spawn steps).2 = false →
        (executeSteps node info dryRun khp tmo spawn steps).1.map (fun r => r.step) = steps ∧
        ∀ r ∈ (executeSteps node info dryRun khp tmo spawn steps).1, r.status ≠ .failed) := by
  intro steps
  induction steps with
  | nil => exact ⟨fun h => by simp [executeSteps] at h, fun _ => by simp [executeSteps]⟩
  | cons step rest ih =>
    obtain ⟨ihAbort, ihOk⟩ := ih
    cases hskip : (step.skipIf.map (fun p => p info)).getD false with
    | true =>
      have hes : executeSteps node info dryRun khp tmo spawn (step :: rest) =
          ({ step, status := .skipped, stdout := "", stderr := "" } ::
            (executeSteps node info dryRun khp tmo spawn rest).1,
           (executeSteps node info dryRun khp tmo spawn rest).2) := by
        simp [executeSteps, hskip]
      rw [hes]
      constructor
      · intro hab
        obtain ⟨hne, hlast, hdrop, hmap⟩ := ihAbort hab
        refine ⟨by simp, ?_, ?_, ?_⟩
        · rw [getLast?_cons_of_ne_nil _ hne]
          exact hlast
        · rw [List.dropLast_cons_of_ne_nil hne]
          intro r hr
          rcases List.mem_cons.mp hr with h | h
          · subst h; simp
          · exact hdrop r h
        · simp only [List.map_cons, List.length_cons, List.take_succ_cons]
          rw [hmap]
      · intro hok
        obtain ⟨hmap, hall⟩ := ihOk hok
        refine ⟨by simp [hmap], ?_⟩
        intro r hr
        rcases List.mem_cons.mp hr with h | h
        · subst h; simp
        · exact hall r h
    | false =>
      cases hdry : dryRun with
      | true =>
        rw [hdry] at ihAbort ihOk
        have hes : executeSteps node info true khp tmo spawn (step :: rest) =
            ({ step, status := .success,
               stdout := "[DRY RUN] Commands not executed", stderr := "" } ::
              (executeSteps node info true khp tmo spawn rest).1,
             (executeSteps node info true khp tmo spawn rest).2) := by
          simp [executeSteps, hskip]
        rw [hes]
        constructor
        · intro hab
          obtain ⟨hne, hlast, hdrop, hmap⟩ := ihAbort hab
          refine ⟨by simp, ?_, ?_, ?_⟩
          · rw [getLast?_cons_of_ne_nil _ hne]
            exact hlast
          · rw [List.dropLast_cons_of_ne_nil hne]
            intro r hr
            rcases List.mem_cons.mp hr with h | h
            · subst h; simp
            · exact hdrop r h
          · simp only [List.map_cons, List.length_cons, List.take_succ_cons]
            rw [hmap]
        · intro hok
          obtain ⟨hmap, hall⟩ := ihOk hok
          refine ⟨by simp [hmap], ?_⟩
          intro r hr
          rcases List.mem_cons.mp hr with h | h
          · subst h; simp
          · exact hall r h
      | false =>
        rw [hdry] at ihAbort ihOk
        cases hfail : (executeStep node step khp tmo spawn).status == .failed with
        | true =>
          have hfail2 : (executeStep node step khp tmo spawn).status = .failed :=
            beq_iff_eq.mp hfail
          have hes : executeSteps node info false khp tmo spawn (step :: rest) =
              ([executeStep node step khp tmo spawn], true) := by
            simp [executeSteps, hskip, hfail2]
          rw [hes]
          constructor
          · intro _
            refine ⟨by simp, by simp [hfail2], by simp, ?_⟩
            simp [executeStep_step]
          · intro hok
            simp at hok
        | false =>
          have hfail2 : ¬(executeStep node step khp tmo spawn).status = .failed := by
            intro h
            rw [h] at hfail
            simp at hfail
          have hes : executeSteps node info false khp tmo spawn (step :: rest) =
              (executeStep node step khp tmo spawn ::
                (executeSteps node info false khp tmo spawn rest).1,
               (executeSteps node info false khp tmo spawn rest).2) := by
            simp [executeSteps, hskip, hfail2]
          rw [hes]
          constructor
          · intro hab
            obtain ⟨hne, hlast, hdrop, hmap⟩ := ihAbort hab
            refine ⟨by simp, ?_, ?_, ?_⟩
            · rw [getLast?_cons_of_ne_nil _ hne]
              exact hlast
            · rw [List.dropLast_cons_of_ne_nil hne]
              intro r hr
              rcases List.mem_cons.mp hr with h | h
              · subst h; exact hfail2
              · exact hdrop r h
            · simp only [List.map_cons, List.length_cons, List.take_succ_cons]
              rw [hmap, executeStep_step]
          · intro hok
            obtain ⟨hmap, hall⟩ := ihOk hok
            refine ⟨by simp [hmap, executeStep_step], ?_⟩
            intro r hr
            rcases List.mem_cons.mp hr with h | h
            · subst h; exact hfail2
            · exact hall r h

/-- C2: in non-dry-run mode, when some recorded step failed, the plan result
has `success = false`, the inventory store is untouched, and the recorded
step results are exactly a prefix of the plan's steps ending at the failed
step — every earlier result is non-failed and later steps are absent. -/
theorem executeBootstrapPlan_failed_step_aborts (plan : BootstrapPlan)
    (khp : String) (tmo : Int) (spawn : List String → SshExecResult)
    (store : FleetStore) (now : String)
    (res : BootstrapResult) (store' : FleetStore)
    (hrun : executeBootstrapPlan plan false khp tmo spawn store now = .ok (res, store'))
    (hfail : ∃ r ∈ res.stepResults, r.status = .failed) :
    res.success = false ∧ store' = store ∧
    res.stepResults ≠ [] ∧
    (res.stepResults.getLast?).map (fun r => r.status) = some .failed ∧
    (∀ r ∈ res.stepResults.dropLast, r.status ≠ .failed) ∧
    res.stepResults.map (fun r => r.step) = plan.steps.take res.stepResults.length := by
  have hspec := executeSteps_spec plan.node plan.nodeInfo false khp tmo spawn plan.steps
  rcases hES : executeSteps plan.node plan.nodeInfo false khp tmo spawn plan.steps
    with ⟨results, aborted⟩
  rw [hES] at hspec
  simp only [executeBootstrapPlan, hES] at hrun
  cases aborted with
  | true =>
    simp only [if_true] at hrun
    have hinj := Except.ok.inj hrun
    have hres : res =
        { node := plan.node
          success := false
          stepResults := results
          error := results.getLast?.bind (fun r => r.error) } :=
      (Prod.mk.inj hinj).1.symm
    have hst : store' = store := (Prod.mk.inj hinj).2.symm
    obtain ⟨hne, hlast, hdrop, hmap⟩ := hspec.1 rfl
    subst hres
    exact ⟨rfl, hst, hne, hlast, hdrop, hmap⟩
  | false =>
    obtain ⟨hmap, hall⟩ := hspec.2 rfl
    simp only [Bool.false_eq_true, if_false] at hrun
    cases hupd : updateNode store plan.node.name (executorUpdates plan now) with
    | error e =>
      rw [hupd] at hrun
      exact absurd hrun (by simp)
    | ok p =>
      rw [hupd] at hrun
      have hinj := Except.ok.inj hrun
      have hres : res =
          { node := plan.node
            success := true
            stepResults := results
            installedVersion := some plan.targetVersion } :=
        (Prod.mk.inj hinj).1.symm
      obtain ⟨r, hrmem, hrfail⟩ := hfail
      rw [hres] at hrmem
      exact absurd hrfail (hall r hrmem)

/-- C2 witness: the bootstrapped node. -/
def c2Node : FleetNode :=
  { id := "3f2504e0-4f89-41d3-9a0c-0305e82c3304"
    name := "edge-2"
    host := "10.0.0.9"
    port := 22
    user := "admin"
    trusted := false
    hostKey := none
    tags := []
    os := none
    arch := none
    installed := none
    lastSeen := none
    serviceStatus := none }

/-- C2 witness: a fact sheet for the plan. -/
def c2Info : NodeInfo :=
  { os := .linux
    arch := .x64
    homeDir := "/home/admin"
    hasNode := false
    nodeVersion := none
    hasNpm := false
    hasRaven := false
    ravenVersion := none
    hasService := false
    serviceRunning := false }

/-- C2 witness: the plan's first (and only) step, never skipped. -/
def c2Step : BootstrapStep :=
  { id := "install-node"
    description := "Install Node.js"
    commands := ["curl -fsSL https://deb.nodesource.com/setup_20.x | sudo -E bash -"]
    skippable := false }

/-- C2 witness: a two-step plan whose first step will time out. -/
def c2Plan : BootstrapPlan :=
  { node := c2Node
    nodeInfo := c2Info
    steps := [c2Step,
      { id := "create-config-dir"
        description := "Create configuration directory"
        commands := ["mkdir -p ~/.openclaw"]
        skippable := false }]
    targetVersion := "2.0.0"
    force := false }

/-- C2 witness: every spawned command hits the hard timeout. -/
def c2SpawnTimeout : List String → SshExecResult := fun _ =>
  { stdout := "", stderr := "", exitCode := none, signal := some "SIGKILL", timedOut := true }

/-- C2 witness: the starting inventory. -/
def c2Store : FleetStore := { schemaVersion := 1, nodes := [c2Node] }

/-- C2 witness: the single failed step result the run records (the plan's
second step is absent). -/
def c2FailedResult : BootstrapStepResult :=
  { step := c2Step
    status := .failed
    stdout := ""
    stderr := ""
    error := some "Command timed out" }

/-- C2 witness: the overall result record. -/
def c2Expected : BootstrapResult :=
  { node := c2Node
    success := false
    stepResults := [c2FailedResult]
    error := some "Command timed out" }

/-- C2 witness: the theorem applied to the timing-out one-command first step;
the run records exactly one (failed) step result and leaves the store
untouched. -/
theorem executeBootstrapPlan_failed_step_aborts_witness :
    (executeBootstrapPlan c2Plan false "/tmp/kh" 120000 c2SpawnTimeout c2Store
        "2026-02-03T04:05:06.000Z" = .ok (c2Expected, c2Store) ∧
      (∃ r ∈ c2Expected.stepResults, r.status = .failed)) ∧
    (c2Expected.success = false ∧ c2Store = c2Store ∧
      c2Expected.stepResults ≠ [] ∧
      (c2Expected.stepResults.getLast?).map (fun r => r.status) = some .failed ∧
      (∀ r ∈ c2Expected.stepResults.dropLast, r.status ≠ .failed) ∧
      c2Expected.stepResults.map (fun r => r.step) =
        c2Plan.steps.take c2Expected.stepResults.length) :=
  ⟨⟨rfl, ⟨c2FailedResult, by simp [c2Expected], rfl⟩⟩,
    executeBootstrapPlan_failed_step_aborts c2Plan "/tmp/kh" 120000 c2SpawnTimeout
      c2Store "2026-02-03T04:05:06.000Z" c2Expected c2Store rfl
      ⟨c2FailedResult, by simp [c2Expected], rfl⟩⟩

/-- `Char.ofNat` round-trips below the surrogate range. -/
theorem toNat_ofNat_of_lt {n : Nat} (h : n < 0xD800) : (Char.ofNat n).toNat = n := by
  unfold Char.ofNat
  rw [dif_pos]
  · rfl
  · exact Or.inl h

/-- A name character is not JS white-space. -/
theorem isNameChar_not_space {c : Char} (h : isNameChar c = true) :
    jsIsSpace c = false := by
  simp only [isNameChar, decide_eq_true_eq, Bool.or_eq_true] at h
  simp only [jsIsSpace, List.mem_cons, List.not_mem_nil, or_false, decide_eq_false_iff_not]
  omega

/-- White-space is untouched by ASCII lower-casing. -/
theorem jsToLower_of_space {c : Char} (h : jsIsSpace c = true) :
    jsToLower c = c := by
  simp only [jsIsSpace, List.mem_cons, List.not_mem_nil, or_false, decide_eq_true_eq] at h
  unfold jsToLower
  rw [if_neg]
  omega

/-- Lower-casing preserves name characters. -/
theorem isNameChar_jsToLower {c : Char} (h : isNameChar c = true) :
    isNameChar (jsToLower c) = true := by
  unfold jsToLower
  by_cases hc : 65 ≤ c.toNat ∧ c.toNat ≤ 90
  · rw [if_pos hc]
    simp only [isNameChar, decide_eq_true_eq]
    rw [toNat_ofNat_of_lt (by omega)]
    omega
  · rw [if_neg hc]
    exact h

/-- A character lower-casing onto a name character's lower-casing is itself a
name character. -/
theorem isNameChar_of_lower_eq {c d : Char} (hd : isNameChar d = true)
    (h : jsToLower c = jsToLower d) : isNameChar c = true := by
  by_cases hc : 65 ≤ c.toNat ∧ c.toNat ≤ 90
  · simp only [isNameChar, decide_eq_true_eq]
    omega
  · have hcl : jsToLower c = c := by unfold jsToLower; rw [if_neg hc]
    rw [hcl] at h
    rw [h]
    exact isNameChar_jsToLower hd

/-- Trimming a string with no white-space characters is the identity. -/
theorem jsTrim_eq_self {s : Str} (h : ∀ c ∈ s, jsIsSpace c = false) :
    jsTrim s = s := by
  unfold jsTrim
  have h1 : s.dropWhile jsIsSpace = s := by
    cases s with
    | nil => rfl
    | cons c cs => simp [List.dropWhile_cons, h c (by simp)]
  rw [h1]
  have h2 : s.reverse.dropWhile jsIsSpace = s.reverse := by
    cases hrev : s.reverse with
    | nil => rfl
    | cons c cs =>
      have hc : c ∈ s := by
        rw [← List.mem_reverse, hrev]
        simp
      simp [List.dropWhile_cons, h c hc]
  rw [h2, List.reverse_reverse]

/-- A case variant of an all-name-character string has no white-space. -/
theorem variant_no_space {v w : Str} (hvar : v.map jsToLower = w.map jsToLower)
    (hw : ∀ c ∈ w, isNameChar c = true) :
    ∀ c ∈ v, jsIsSpace c = false := by
  intro c hc
  have hmem : jsToLower c ∈ w.map jsToLower := by
    rw [← hvar]
    exact List.mem_map_of_mem jsToLower hc
  obtain ⟨d, hd, hde⟩ := List.mem_map.mp hmem
  by_contra hsp
  have hsp' : jsIsSpace c = true := by
    cases h : jsIsSpace c with
    | true => rfl
    | false => exact absurd h hsp
  have hcl : jsToLower c = c := jsToLower_of_space hsp'
  have : isNameChar c = true := by
    rw [← hcl, ← hde]
    exact isNameChar_jsToLower (hw d hd)
  rw [isNameChar_not_space this] at hsp'
  exact absurd hsp' (by simp)

/-- Case variants of a stored (regex-validated) name normalize identically. -/
theorem normalize_eq_of_variant {v w : String}
    (hvar : v.data.map jsToLower = w.data.map jsToLower)
    (hw : ∀ c ∈ w.data, isNameChar c = true) :
    normalizeNodeName v = normalizeNodeName w := by
  unfold normalizeNodeName
  rw [jsTrim_eq_self (variant_no_space hvar hw),
    jsTrim_eq_self (fun c hc => isNameChar_not_space (hw c hc)), hvar]

/-- A name passing `validateNodeName` matches the regex and the length
bound. -/
theorem validateNodeName_none {name : String} (h : validateNodeName name = none) :
    nodeNameRegexTest name = true ∧ name.data.length ≤ 100 := by
  unfold validateNodeName at h
  by_cases h1 : (name = "" ∨ jsTrim name.data = [])
  · rw [if_pos h1] at h
    exact absurd h (by simp)
  · rw [if_neg h1] at h
    by_cases h2 : (!nodeNameRegexTest name) = true
    · rw [if_pos h2] at h
      exact absurd h (by simp)
    · rw [if_neg h2] at h
      by_cases h3 : name.data.length > 100
      · rw [if_pos h3] at h
        exact absurd h (by simp)
      · exact ⟨by simpa using h2, by omega⟩

/-- C6: after a successful `addNode`, looking the node up under any case
variant of its stored name returns the same record; an immediately
following `addNode` whose (otherwise valid) input differs from the stored
name only in letter case fails with the duplicate-name error; and the
inventory holds exactly one record with that name. -/
theorem addNode_case_insensitive_unique (input : AddNodeInput) (id : String)
    (store : FleetStore) (node : FleetNode) (store' : FleetStore)
    (h : addNode input id store = .ok (node, store')) :
    (∀ v : String, v.data.map jsToLower = node.name.data.map jsToLower →
      getNode v store' = some node) ∧
    (∀ (input2 : AddNodeInput) (id2 : String),
      input2.name.data.map jsToLower = node.name.data.map jsToLower →
      validateHost input2.host = none →
      validatePort input2.port = none →
      validateUser input2.user = none →
      addNode input2 id2 store' =
        .error ("Node with name \x27" ++ input2.name ++ "\x27 already exists")) ∧
    store'.nodes.countP (nodeNameMatches node.name) = 1 := by
  unfold addNode at h
  cases hn : validateNodeName input.name with
  | some e => rw [hn] at h; exact absurd h (by simp)
  | none =>
  rw [hn] at h
  cases hh : validateHost input.host with
  | some e => rw [hh] at h; exact absurd h (by simp)
  | none =>
  rw [hh] at h
  cases hp : validatePort input.port with
  | some e => rw [hp] at h; exact absurd h (by simp)
  | none =>
  rw [hp] at h
  cases hu : validateUser input.user with
  | some e => rw [hu] at h; exact absurd h (by simp)
  | none =>
  rw [hu] at h
  cases hfind : store.nodes.find? (nodeNameMatches input.name) with
  | some n => rw [hfind] at h; exact absurd h (by simp)
  | none =>
  rw [hfind] at h
  rw [if_neg (by simp)] at h
  simp only [Except.ok.injEq, Prod.mk.injEq] at h
  obtain ⟨hnode, hstore⟩ := h
  -- the accepted name is regex-clean, so trimming is the identity
  obtain ⟨hreg, hlen⟩ := validateNodeName_none hn
  simp only [nodeNameRegexTest, Bool.and_eq_true, decide_eq_true_eq, Bool.not_eq_true',
    List.isEmpty_eq_false, List.all_eq_true] at hreg
  obtain ⟨hne, hchars⟩ := hreg
  have htrim : jsTrim input.name.data = input.name.data :=
    jsTrim_eq_self (fun c hc => isNameChar_not_space (hchars c hc))
  have hnodename : node.name = input.name := by
    rw [← hnode]
    show jsTrimS input.name = input.name
    unfold jsTrimS
    rw [htrim]
  have hnorm_node : normalizeNodeName node.name = normalizeNodeName input.name := by
    rw [hnodename]
  have hnodes' : store'.nodes = store.nodes ++ [node] := by
    rw [← hstore, ← hnode]
  have hfindnone := List.find?_eq_none.mp hfind
  -- the matcher only depends on the normalized lookup name
  have hagree : ∀ q : String, normalizeNodeName q = normalizeNodeName input.name →
      ∀ n, nodeNameMatches q n = nodeNameMatches input.name n := by
    intro q hq n
    unfold nodeNameMatches
    rw [hq]
  have hchars_node : ∀ c ∈ node.name.data, isNameChar c = true := by
    rw [hnodename]
    exact hchars
  have hself : ∀ q : String, normalizeNodeName q = normalizeNodeName input.name →
      nodeNameMatches q node = true := by
    intro q hq
    unfold nodeNameMatches
    rw [hq, hnorm_node]
    exact beq_self_eq_true _
  refine ⟨?_, ?_, ?_⟩
  · -- case-variant lookup returns the record
    intro v hv
    have hnorm : normalizeNodeName v = normalizeNodeName input.name := by
      rw [← hnorm_node]
      exact normalize_eq_of_variant hv hchars_node
    unfold getNode
    rw [hnodes', List.find?_append]
    have h1 : store.nodes.find? (nodeNameMatches v) = none := by
      rw [List.find?_eq_none]
      intro x hx
      rw [hagree v hnorm x]
      exact hfindnone x hx
    have h2 : [node].find? (nodeNameMatches v) = some node := by
      simp [List.find?, hself v hnorm]
    rw [h1, h2]
    rfl
  · -- duplicate case-variant add is rejected
    intro input2 id2 hvar2 hh2 hp2 hu2
    have hlen2 : input2.name.data.length = node.name.data.length := by
      have := congrArg List.length hvar2
      simpa using this
    have hchars2 : ∀ c ∈ input2.name.data, isNameChar c = true := by
      intro c hc
      have hmem : jsToLower c ∈ node.name.data.map jsToLower := by
        rw [← hvar2]
        exact List.mem_map_of_mem jsToLower hc
      obtain ⟨d, hd, hde⟩ := List.mem_map.mp hmem
      exact isNameChar_of_lower_eq (hchars_node d hd) hde.symm
    have hne2 : input2.name.data ≠ [] := by
      intro hemp
      rw [hemp] at hlen2
      rw [hnodename] at hlen2
      exact hne (List.eq_nil_of_length_eq_zero hlen2.symm)
    have htrim2 : jsTrim input2.name.data = input2.name.data :=
      jsTrim_eq_self (fun c hc => isNameChar_not_space (hchars2 c hc))
    have hreg2 : nodeNameRegexTest input2.name = true := by
      simp only [nodeNameRegexTest, Bool.and_eq_true, decide_eq_true_eq,
        Bool.not_eq_true', List.isEmpty_eq_false, List.all_eq_true]
      exact ⟨hne2, hchars2⟩
    have hpc1 : ¬(input2.name = "" ∨ jsTrim input2.name.data = []) := by
      push_neg
      constructor
      · intro hemp
        exact hne2 (by rw [hemp])
      · rw [htrim2]
        exact hne2
    have hpc2 : ¬(!nodeNameRegexTest input2.name) = true := by
      simp [hreg2]
    have hpc3 : ¬input2.name.data.length > 100 := by
      rw [hlen2, hnodename]
      omega
    have hv2 : validateNodeName input2.name = none := by
      unfold validateNodeName
      rw [if_neg hpc1, if_neg hpc2, if_neg hpc3]
    have hnorm2 : normalizeNodeName input2.name = normalizeNodeName input.name := by
      rw [← hnorm_node]
      exact normalize_eq_of_variant hvar2 hchars_node
    unfold addNode
    rw [hv2, hh2, hp2, hu2]
    have hfound : store'.nodes.find? (nodeNameMatches input2.name) = some node := by
      rw [hnodes', List.find?_append]
      have h1 : store.nodes.find? (nodeNameMatches input2.name) = none := by
        rw [List.find?_eq_none]
        intro x hx
        rw [hagree input2.name hnorm2 x]
        exact hfindnone x hx
      have h2 : [node].find? (nodeNameMatches input2.name) = some node := by
        simp [List.find?, hself input2.name hnorm2]
      rw [h1, h2]
      rfl
    rw [hfound]
    rw [if_pos (by simp)]
  · -- exactly one record with the new name
    rw [hnodes', List.countP_append]
    have h0 : store.nodes.countP (nodeNameMatches node.name) = 0 := by
      rw [List.countP_eq_zero]
      intro a ha
      rw [hagree node.name hnorm_node a]
      intro hcontra
      exact absurd (hfindnone a ha) (by simp [hcontra])
    rw [h0]
    simp [List.countP_cons, hself node.name hnorm_node]

/-- C6 witness: the add input. -/
def c6Input : AddNodeInput :=
  { name := "Edge-1"
    host := "10.0.0.1"
    port := 22
    user := "admin"
    trusted := none
    hostKey := none
    tags := none
    installed := none
    lastSeen := none }

/-- C6 witness: the record the add produces. -/
def c6Node : FleetNode :=
  { id := "3f2504e0-4f89-41d3-9a0c-0305e82c3305"
    name := "Edge-1"
    host := "10.0.0.1"
    port := 22
    user := "admin"
    trusted := false
    hostKey := none
    tags := []
    os := none
    arch := none
    installed := none
    lastSeen := none
    serviceStatus := none }

/-- C6 witness: the written inventory. -/
def c6Store' : FleetStore := { schemaVersion := 1, nodes := [c6Node] }

/-- C6 witness: the theorem applied to adding `Edge-1` to an empty
inventory. -/
theorem addNode_case_insensitive_unique_witness :
    (addNode c6Input "3f2504e0-4f89-41d3-9a0c-0305e82c3305" createEmptyFleetStore =
      .ok (c6Node, c6Store')) ∧
    ((∀ v : String, v.data.map jsToLower = c6Node.name.data.map jsToLower →
        getNode v c6Store' = some c6Node) ∧
      (∀ (input2 : AddNodeInput) (id2 : String),
        input2.name.data.map jsToLower = c6Node.name.data.map jsToLower →
        validateHost input2.host = none →
        validatePort input2.port = none →
        validateUser input2.user = none →
        addNode input2 id2 c6Store' =
          .error ("Node with name \x27" ++ input2.name ++ "\x27 already exists")) ∧
      c6Store'.nodes.countP (nodeNameMatches c6Node.name) = 1) :=
  ⟨rfl, addNode_case_insensitive_unique c6Input "3f2504e0-4f89-41d3-9a0c-0305e82c3305"
    createEmptyFleetStore c6Node c6Store' rfl⟩

/-! ### C5: the known_hosts round-trip law -/

/-- Every character of `natDigits n` is a decimal digit. -/
theorem natDigits_all_digits : ∀ n, ∀ c ∈ natDigits n, isDigitChar c = true := by
  intro n
  induction n using Nat.strong_induction_on with
  | _ n ih =>
    rw [natDigits]
    split
    · intro c hc
      simp only [List.mem_singleton] at hc
      subst hc
      simp only [isDigitChar, decide_eq_true_eq]
      rw [toNat_ofNat_of_lt (by omega)]
      omega
    · intro c hc
      rcases List.mem_append.mp hc with h | h
      · exact ih (n / 10) (Nat.div_lt_self (by omega) (by omega)) c h
      · simp only [List.mem_singleton] at h
        subst h
        simp only [isDigitChar, decide_eq_true_eq]
        rw [toNat_ofNat_of_lt (by omega)]
        omega

/-- `natDigits` is never empty. -/
theorem natDigits_ne_nil (n : Nat) : natDigits n ≠ [] := by
  rw [natDigits]
  split
  · simp
  · simp

/-- `parseInt` inverts the decimal rendering. -/
theorem digitsToNat_natDigits : ∀ n, digitsToNat (natDigits n) = n := by
  intro n
  induction n using Nat.strong_induction_on with
  | _ n ih =>
    rw [natDigits]
    split
    · unfold digitsToNat
      simp only [List.foldl_cons, List.foldl_nil]
      rw [toNat_ofNat_of_lt (by omega)]
      omega
    · unfold digitsToNat
      rw [List.foldl_append]
      have hrec := ih (n / 10) (Nat.div_lt_self (by omega) (by omega))
      unfold digitsToNat at hrec
      rw [hrec]
      simp only [List.foldl_cons, List.foldl_nil]
      rw [toNat_ofNat_of_lt (by omega)]
      omega

/-- `takeWhile` / `dropWhile` split at the first failing element. -/
theorem takeWhile_dropWhile_split {p : Char → Bool} {l1 : Str}
    (h : ∀ c ∈ l1, p c = true) (x : Char) (hx : p x = false) (l2 : Str) :
    (l1 ++ x :: l2).takeWhile p = l1 ∧ (l1 ++ x :: l2).dropWhile p = x :: l2 := by
  induction l1 with
  | nil => simp [List.takeWhile_cons, List.dropWhile_cons, hx]
  | cons c cs ih =>
    have hc : p c = true := h c (by simp)
    have ih' := ih (fun d hd => h d (by simp [hd]))
    simp [List.takeWhile_cons, List.dropWhile_cons, hc, ih'.1, ih'.2]

/-- A host containing no `]` never matches the bracket pattern. -/
theorem parseHostEntry_no_rbracket {h : Str} (hnb : ']' ∉ h) :
    parseHostEntry h = (h, 22) := by
  match h with
  | [] => rfl
  | c :: t =>
    by_cases hc : c = '['
    · subst hc
      have hall : ∀ d ∈ t, (decide (d ≠ ']')) = true := by
        intro d hd
        simp only [decide_eq_true_eq]
        intro hde
        exact hnb (List.mem_cons_of_mem _ (hde ▸ hd))
      have hdrop : t.dropWhile (fun d => decide (d ≠ ']')) = [] :=
        List.dropWhile_eq_nil_iff.mpr hall
      simp only [parseHostEntry, hdrop]
    · unfold parseHostEntry
      split
      · next heq =>
        obtain ⟨hc', -⟩ := List.cons.inj heq
        exact absurd hc' hc
      · rfl

/-- The structural invariant every parsed entry enjoys: non-empty
white-space-free fields, a host that re-parses as itself at the default
port, and (for bracket-parsed ports) no `]` inside the host. -/
def parsedEntryInv (e : HostKeyEntry) : Prop :=
  e.host ≠ [] ∧ (∀ c ∈ e.host, jsIsSpace c = false) ∧
  e.keyType ≠ [] ∧ (∀ c ∈ e.keyType, jsIsSpace c = false) ∧
  e.key ≠ [] ∧ (∀ c ∈ e.key, jsIsSpace c = false) ∧
  parseHostEntry e.host = (e.host, 22) ∧
  (e.port ≠ 22 → ']' ∉ e.host)

/-- A bare entry (not starting with `[`) parses as itself at port 22. -/
theorem parseHostEntry_not_lbracket {c : Char} {t : Str} (hc : c ≠ '[') :
    parseHostEntry (c :: t) = (c :: t, 22) := by
  unfold parseHostEntry
  split
  · next heq =>
    obtain ⟨hc', -⟩ := List.cons.inj heq
    exact absurd hc' hc
  · rfl

/-- `parseHostEntry` either falls through to the bare form or successfully
destructures a bracketed address. -/
theorem parseHostEntry_cases (entry : Str) :
    parseHostEntry entry = (entry, 22) ∨
    (∃ h ds, entry = '[' :: h ++ ']' :: ':' :: ds ∧ h ≠ [] ∧ ds ≠ [] ∧
      ds.all isDigitChar = true ∧ ']' ∉ h ∧
      parseHostEntry entry = (h, digitsToNat ds)) := by
  match entry with
  | [] => exact Or.inl rfl
  | c :: t =>
    by_cases hc : c = '['
    · subst hc
      simp only [parseHostEntry]
      split
      · next ds heq =>
        split_ifs with hcond
        · right
          refine ⟨t.takeWhile (fun x => decide (x ≠ ']')), ds, ?_,
            hcond.1, hcond.2.1, hcond.2.2, ?_, rfl⟩
          · have := List.takeWhile_append_dropWhile (fun x => decide (x ≠ ']')) t
            conv_lhs => rw [← this]
            rw [heq]
            simp
          · intro hmem
            have := List.mem_takeWhile_imp hmem
            simp at this
        · exact Or.inl rfl
      · exact Or.inl rfl
    · exact Or.inl (parseHostEntry_not_lbracket hc)

/-- The invariants of the host/port pair a parse produces. -/
theorem parseHostEntry_inv {entry : Str} (hne : entry ≠ [])
    (hws : ∀ c ∈ entry, jsIsSpace c = false) :
    (parseHostEntry entry).1 ≠ [] ∧
    (∀ c ∈ (parseHostEntry entry).1, jsIsSpace c = false) ∧
    parseHostEntry (parseHostEntry entry).1 = ((parseHostEntry entry).1, 22) ∧
    ((parseHostEntry entry).2 ≠ 22 → ']' ∉ (parseHostEntry entry).1) := by
  rcases parseHostEntry_cases entry with h | ⟨hh, ds, hent, hhne, hdsne, hdig, hnb, hres⟩
  · rw [h]
    exact ⟨hne, hws, h, by simp⟩
  · rw [hres]
    refine ⟨hhne, ?_, parseHostEntry_no_rbracket hnb, fun _ => hnb⟩
    intro c hcm
    exact hws c (by rw [hent]; simp [hcm])

/-- Every field `jsWordsGo` emits is non-empty and white-space-free. -/
theorem jsWordsGo_fields :
    ∀ (s acc : Str), (∀ c ∈ acc, jsIsSpace c = false) →
      ∀ w ∈ jsWordsGo s acc, w ≠ [] ∧ ∀ c ∈ w, jsIsSpace c = false := by
  intro s
  induction s with
  | nil =>
    intro acc hacc w hw
    cases acc with
    | nil => simp [jsWordsGo] at hw
    | cons a as =>
      simp only [jsWordsGo, List.isEmpty_cons, Bool.false_eq_true, if_false,
        List.mem_singleton] at hw
      subst hw
      refine ⟨by simp, ?_⟩
      intro c hc
      exact hacc c (List.mem_reverse.mp hc)
  | cons c s' ih =>
    intro acc hacc w hw
    cases hsp : jsIsSpace c with
    | true =>
      rw [jsWordsGo] at hw
      rw [hsp] at hw
      simp only [if_true] at hw
      cases acc with
      | nil => exact ih [] (by simp) w (by simpa using hw)
      | cons a as =>
        simp only [List.isEmpty_cons, Bool.false_eq_true, if_false, List.mem_cons] at hw
        rcases hw with hw | hw
        · subst hw
          refine ⟨by simp, ?_⟩
          intro d hd
          exact hacc d (List.mem_reverse.mp hd)
        · exact ih [] (by simp) w hw
    | false =>
      rw [jsWordsGo] at hw
      rw [hsp] at hw
      simp only [Bool.false_eq_true, if_false] at hw
      refine ih (c :: acc) ?_ w hw
      intro d hd
      rcases List.mem_cons.mp hd with h | h
      · subst h; exact hsp
      · exact hacc d h

/-- `jsWordsGo` consumes a white-space-free block into the accumulator. -/
theorem jsWordsGo_append {w : Str} (hw : ∀ c ∈ w, jsIsSpace c = false) :
    ∀ (s acc : Str), jsWordsGo (w ++ s) acc = jsWordsGo s (w.reverse ++ acc) := by
  induction w with
  | nil => intro s acc; simp
  | cons c w' ih =>
    intro s acc
    have hc : jsIsSpace c = false := hw c (by simp)
    have ih' := ih (fun d hd => hw d (by simp [hd])) s (c :: acc)
    rw [List.cons_append, jsWordsGo, hc]
    simp only [Bool.false_eq_true, if_false]
    rw [ih']
    simp

/-- Splitting a line made of three space-separated white-space-free fields
returns exactly the three fields. -/
theorem jsSplitWs_three {w1 w2 w3 : Str}
    (h1 : w1 ≠ []) (hw1 : ∀ c ∈ w1, jsIsSpace c = false)
    (h2 : w2 ≠ []) (hw2 : ∀ c ∈ w2, jsIsSpace c = false)
    (h3 : w3 ≠ []) (hw3 : ∀ c ∈ w3, jsIsSpace c = false) :
    jsSplitWs (w1 ++ ' ' :: w2 ++ ' ' :: w3) = [w1, w2, w3] := by
  have hspace : jsIsSpace ' ' = true := by decide
  unfold jsSplitWs
  rw [List.append_assoc, List.cons_append, jsWordsGo_append hw1]
  rw [jsWordsGo, hspace]
  simp only [List.append_nil, if_true, List.isEmpty_eq_false.mpr (by simp [h1] :
    w1.reverse ≠ []), Bool.false_eq_true, if_false, List.reverse_reverse]
  rw [jsWordsGo_append hw2]
  rw [jsWordsGo, hspace]
  simp only [List.append_nil, if_true, List.isEmpty_eq_false.mpr (by simp [h2] :
    w2.reverse ≠ []), Bool.false_eq_true, if_false, List.reverse_reverse]
  rw [show w3 = w3 ++ [] by simp, jsWordsGo_append hw3]
  simp only [jsWordsGo, List.append_nil,
    List.isEmpty_eq_false.mpr (by simp [h3] : w3.reverse ≠ []), Bool.false_eq_true,
    if_false, List.reverse_reverse]

/-- The last element of a list is a member. -/
theorem mem_of_getLast?_eq {l : Str} {c : Char} (h : l.getLast? = some c) : c ∈ l := by
  obtain ⟨hne, hc⟩ := List.mem_getLast?_eq_getLast (by simpa using h)
  rw [hc]
  exact List.getLast_mem hne

/-- Trimming is the identity when both ends are non-white-space. -/
theorem jsTrim_eq_self_of_ends {s : Str}
    (hhead : ∀ c, s.head? = some c → jsIsSpace c = false)
    (hlast : ∀ c, s.getLast? = some c → jsIsSpace c = false) :
    jsTrim s = s := by
  unfold jsTrim
  have h1 : s.dropWhile jsIsSpace = s := by
    cases s with
    | nil => rfl
    | cons c cs => simp [List.dropWhile_cons, hhead c rfl]
  rw [h1]
  have h2 : s.reverse.dropWhile jsIsSpace = s.reverse := by
    cases hr : s.reverse with
    | nil => rfl
    | cons c cs =>
      have hc : s.getLast? = some c := by
        rw [← List.head?_reverse, hr]
        rfl
      simp [List.dropWhile_cons, hlast c hc]
  rw [h2, List.reverse_reverse]

/-- A digit is not white-space. -/
theorem isDigitChar_not_space {c : Char} (h : isDigitChar c = true) :
    jsIsSpace c = false := by
  simp only [isDigitChar, decide_eq_true_eq] at h
  simp only [jsIsSpace, List.mem_cons, List.not_mem_nil, or_false, decide_eq_false_iff_not]
  omega

/-- The formatted address field is non-empty and white-space-free. -/
theorem formatHostEntry_fields {host : Str} (port : Nat) (hne : host ≠ [])
    (hws : ∀ c ∈ host, jsIsSpace c = false) :
    formatHostEntry host port ≠ [] ∧
    (∀ c ∈ formatHostEntry host port, jsIsSpace c = false) := by
  unfold formatHostEntry
  split
  · exact ⟨hne, hws⟩
  · refine ⟨by simp, ?_⟩
    intro c hc
    rcases List.mem_cons.mp hc with h | h
    · subst h; decide
    · rcases List.mem_append.mp h with h | h
      · exact hws c h
      · rcases List.mem_cons.mp h with h | h
        · subst h; decide
        · rcases List.mem_cons.mp h with h | h
          · subst h; decide
          · exact isDigitChar_not_space (natDigits_all_digits port c h)

/-- No newline occurs in a formatted known_hosts line (its fields are
white-space-free and its separators are not newlines). -/
theorem formatLine_no_newline {e : HostKeyEntry} (hinv : parsedEntryInv e) :
    '\n' ∉ formatKnownHostsLine e := by
  obtain ⟨hhne, hhws, htne, htws, hkne, hkws, hself, hnb⟩ := hinv
  intro hmem
  have hnl : jsIsSpace '\n' = true := by decide
  unfold formatKnownHostsLine at hmem
  rcases List.mem_append.mp hmem with h | h
  · rcases List.mem_append.mp h with h | h
    · rw [(formatHostEntry_fields e.port hhne hhws).2 '\n' h] at hnl
      exact absurd hnl (by simp)
    · rcases List.mem_cons.mp h with h | h
      · exact absurd h (by decide)
      · rw [htws '\n' h] at hnl
        exact absurd hnl (by simp)
  · rcases List.mem_cons.mp h with h | h
    · exact absurd h (by decide)
    · rw [hkws '\n' h] at hnl
      exact absurd hnl (by simp)

/-- The head of a list is a member. -/
theorem mem_of_head?_eq {l : Str} {c : Char} (h : l.head? = some c) : c ∈ l := by
  cases l with
  | nil => exact absurd h (by simp)
  | cons a as =>
    rw [List.head?_cons, Option.some.injEq] at h
    rw [← h]
    simp

/-- Re-parsing one formatted known_hosts line recovers the entry, provided
the entry satisfies the parse invariants and is not a default-port host
beginning with `#` (which would re-read as a comment). -/
theorem parseLine_formatLine {e : HostKeyEntry} (hinv : parsedEntryInv e)
    (hhash : e.port = 22 → e.host.head? ≠ some '#') :
    parseKnownHostsLine (formatKnownHostsLine e) = some e := by
  obtain ⟨hhne, hhws, htne, htws, hkne, hkws, hself, hnb⟩ := hinv
  obtain ⟨hfne, hfws⟩ := formatHostEntry_fields e.port hhne hhws
  have hsplit : jsSplitWs (formatKnownHostsLine e) =
      [formatHostEntry e.host e.port, e.keyType, e.key] :=
    jsSplitWs_three hfne hfws htne htws hkne hkws
  have hheadL : (formatKnownHostsLine e).head? = (formatHostEntry e.host e.port).head? := by
    unfold formatKnownHostsLine
    rw [List.head?_append, List.head?_append]
    cases hfh : (formatHostEntry e.host e.port).head? with
    | none => exact absurd (List.head?_eq_none_iff.mp hfh) hfne
    | some c => rfl
  have hlastL : (formatKnownHostsLine e).getLast? = e.key.getLast? := by
    unfold formatKnownHostsLine
    rw [List.getLast?_append, getLast?_cons_of_ne_nil ' ' hkne]
    cases hk : e.key.getLast? with
    | none => exact absurd (List.getLast?_eq_none_iff.mp hk) hkne
    | some c => rfl
  have htrimL : jsTrim (formatKnownHostsLine e) = formatKnownHostsLine e := by
    apply jsTrim_eq_self_of_ends
    · intro c hc
      rw [hheadL] at hc
      exact hfws c (mem_of_head?_eq hc)
    · intro c hc
      rw [hlastL] at hc
      exact hkws c (mem_of_getLast?_eq hc)
  have hLne : formatKnownHostsLine e ≠ [] := by
    unfold formatKnownHostsLine
    simp
  have hnc : (formatKnownHostsLine e).head? ≠ some '#' := by
    rw [hheadL]
    unfold formatHostEntry
    split
    · next hp => exact hhash hp
    · simp
  have hfe : parseHostEntry (formatHostEntry e.host e.port) = (e.host, e.port) := by
    unfold formatHostEntry
    split
    · next hp => rw [hself, hp]
    · next hp =>
      have hnbr : ']' ∉ e.host := hnb hp
      have ha : ∀ c ∈ e.host, (fun c => decide (c ≠ ']')) c = true := by
        intro c hc
        simp only [decide_eq_true_eq]
        intro hce
        exact hnbr (hce ▸ hc)
      obtain ⟨htake, hdrop⟩ := takeWhile_dropWhile_split ha
        ']' (by simp) (':' :: natDigits e.port)
      simp only [List.cons_append] at htake hdrop ⊢
      simp only [parseHostEntry, htake, hdrop]
      rw [if_pos ⟨hhne, natDigits_ne_nil e.port,
        List.all_eq_true.mpr (natDigits_all_digits e.port)⟩]
      rw [digitsToNat_natDigits]
  unfold parseKnownHostsLine
  simp only [htrimL, hsplit, hfe]
  rw [if_neg hLne, if_neg hnc]
  rw [if_neg (by push_neg; exact ⟨hfne, htne, hkne⟩)]

/-- Every entry a line parse yields satisfies the structural invariants. -/
theorem parseLine_inv {line : Str} {e : HostKeyEntry}
    (h : parseKnownHostsLine line = some e) : parsedEntryInv e := by
  unfold parseKnownHostsLine at h
  by_cases h1 : jsTrim line = []
  · simp [h1] at h
  · rw [if_neg h1] at h
    by_cases h2 : (jsTrim line).head? = some '#'
    · rw [if_pos h2] at h
      exact absurd h (by simp)
    · rw [if_neg h2] at h
      have hfields := jsWordsGo_fields (jsTrim line) [] (by simp)
      rcases hsp : jsSplitWs (jsTrim line) with _ | ⟨a, _ | ⟨b, _ | ⟨c, rest⟩⟩⟩
      · simp [hsp] at h
      · simp [hsp] at h
      · simp [hsp] at h
      · rw [hsp] at h
        simp only at h
        by_cases hg : a = [] ∨ b = [] ∨ c = []
        · simp [hg] at h
        · rw [if_neg hg] at h
          rw [Option.some.injEq] at h
          have hw : jsWordsGo (jsTrim line) [] = a :: b :: c :: rest := hsp
          obtain ⟨hane, haws⟩ := hfields a (by rw [hw]; simp)
          obtain ⟨hbne, hbws⟩ := hfields b (by rw [hw]; simp)
          obtain ⟨hcne, hcws⟩ := hfields c (by rw [hw]; simp)
          obtain ⟨hp1, hp2, hp3, hp4⟩ := parseHostEntry_inv hane haws
          rw [← h]
          exact ⟨hp1, hp2, hbne, hbws, hcne, hcws, hp3, hp4⟩

/-- Every entry of a known_hosts parse satisfies the invariants. -/
theorem parseKnownHosts_inv (content : Str) :
    ∀ e ∈ parseKnownHosts content, parsedEntryInv e := by
  intro e he
  obtain ⟨line, -, hline⟩ := List.mem_filterMap.mp he
  exact parseLine_inv hline

/-- Splitting on newlines peels off a newline-free first line. -/
theorem splitOnNl_append_line {l : Str} (hl : '\n' ∉ l) (s : Str) :
    splitOnNl (l ++ '\n' :: s) = l :: splitOnNl s := by
  induction l with
  | nil => simp [splitOnNl]
  | cons c l' ih =>
    have hc : ¬c = '\n' := fun hce => hl (by simp [hce])
    have ih' := ih (fun hm => hl (by simp [hm]))
    show splitOnNl (c :: (l' ++ '\n' :: s)) = (c :: l') :: splitOnNl s
    rw [splitOnNl, if_neg hc, ih']

/-- `formatKnownHosts` on a list with a non-empty tail is the first line, a
newline, then the rest of the file. -/
theorem formatKnownHosts_cons (e f : HostKeyEntry) (E : List HostKeyEntry) :
    formatKnownHosts (e :: f :: E) =
      formatKnownHostsLine e ++ '\n' :: formatKnownHosts (f :: E) := by
  unfold formatKnownHosts
  simp [List.intercalate, List.intersperse]

/-- Parsing a formatted entry list recovers it, provided every entry enjoys
the parse invariants and no default-port entry's host begins with `#`. -/
theorem parse_format : ∀ E : List HostKeyEntry,
    (∀ e ∈ E, parsedEntryInv e) →
    (∀ e ∈ E, e.port = 22 → e.host.head? ≠ some '#') →
    parseKnownHosts (formatKnownHosts E) = E := by
  intro E
  induction E with
  | nil => intro _ _; rfl
  | cons e E' ih =>
    intro hinv hhash
    have hinve := hinv e (by simp)
    have hhashe := hhash e (by simp)
    cases E' with
    | nil =>
      have hfmt : formatKnownHosts [e] = formatKnownHostsLine e ++ '\n' :: [] := by
        unfold formatKnownHosts
        simp [List.intercalate, List.intersperse]
      rw [hfmt]
      unfold parseKnownHosts
      rw [splitOnNl_append_line (formatLine_no_newline hinve)]
      rw [List.filterMap_cons, parseLine_formatLine hinve hhashe]
      rfl
    | cons f E'' =>
      rw [formatKnownHosts_cons]
      unfold parseKnownHosts
      rw [splitOnNl_append_line (formatLine_no_newline hinve)]
      rw [List.filterMap_cons, parseLine_formatLine hinve hhashe]
      have ihh := ih (fun x hx => hinv x (by simp [hx]))
        (fun x hx => hhash x (by simp [hx]))
      unfold parseKnownHosts at ihh
      rw [ihh]

/-- C5 (amended): the canonical re-serialization
`formatKnownHosts (parseKnownHosts s)` is stable under a further
parse/format round trip whenever no parsed entry combines the default
port 22 with a host beginning with `#` (such an entry re-serializes as a
line starting with `#`, which the next parse drops as a comment);
entries with port 22 render as a bare host and any other port in
`[host]:port` bracket form; blank lines and `#`-prefixed comment lines
are ignored by parsing. -/
theorem knownHosts_roundtrip_stable (content : Str)
    (hhash : ∀ e ∈ parseKnownHosts content, e.port = 22 → e.host.head? ≠ some '#') :
    formatKnownHosts (parseKnownHosts (formatKnownHosts (parseKnownHosts content))) =
      formatKnownHosts (parseKnownHosts content) ∧
    (∀ (host : Str) (port : Nat), formatHostEntry host port =
      if port = 22 then host else '[' :: host ++ ']' :: ':' :: natDigits port) ∧
    (∀ line : Str, jsTrim line = [] ∨ (jsTrim line).head? = some '#' →
      parseKnownHostsLine line = none) := by
  refine ⟨?_, fun _ _ => rfl, ?_⟩
  · rw [parse_format (parseKnownHosts content) (parseKnownHosts_inv content) hhash]
  · intro line hl
    unfold parseKnownHostsLine
    rcases hl with h | h
    · rw [if_pos h]
    · by_cases h0 : jsTrim line = []
      · rw [if_pos h0]
      · rw [if_neg h0, if_pos h]

/-- C5 counterexample: for the input `"[#host]:22 ssh-ed25519 AAAA"` the
re-serialization `"#host ssh-ed25519 AAAA\n"` is NOT stable under a
further parse/format round trip — the line now begins with `#`, is
dropped as a comment, and the round trip returns `"\n"`. -/
theorem knownHosts_roundtrip_counterexample :
    formatKnownHosts (parseKnownHosts (formatKnownHosts (parseKnownHosts
      ("[#host]:22 ssh-ed25519 AAAA".data)))) ≠
    formatKnownHosts (parseKnownHosts ("[#host]:22 ssh-ed25519 AAAA".data)) := by
  decide

/-- C5 witness file: two well-formed entries (default and bracketed port),
a comment and a blank line. -/
def c5Content : Str :=
  "github.com ssh-ed25519 AAAAC3Nz\n[example.com]:2222 ssh-rsa BBBB\n# pinned by operator\n\n".data

/-- C5 witness: the amended theorem applied to the concrete file. -/
theorem knownHosts_roundtrip_stable_witness :
    (∀ e ∈ parseKnownHosts c5Content, e.port = 22 → e.host.head? ≠ some '#') ∧
    (formatKnownHosts (parseKnownHosts (formatKnownHosts (parseKnownHosts c5Content))) =
      formatKnownHosts (parseKnownHosts c5Content) ∧
    (∀ (host : Str) (port : Nat), formatHostEntry host port =
      if port = 22 then host else '[' :: host ++ ']' :: ':' :: natDigits port) ∧
    (∀ line : Str, jsTrim line = [] ∨ (jsTrim line).head? = some '#' →
      parseKnownHostsLine line = none)) :=
  ⟨by decide, knownHosts_roundtrip_stable c5Content (by decide)⟩
